import Mathlib

/-!
Verification development for the `simplept` path tracer (src/simplept.cpp).

The C++ source is shallowly embedded: `double` is modelled by `ℝ`, the
3-vector type `Vec` and its operations are translated field by field, and
every function that consumes the global random generator `rng` receives its
uniform draws explicitly (either as named arguments or as a stream
`ξ : ℕ → ℝ` together with the index of the next unconsumed draw).  The
unbounded recursion of `receivedRadiance` is made total with an explicit
fuel argument: fuel `0` returns black, and fuel `f+1` executes one level of
the C++ body exactly.
-/

open MeasureTheory intervalIntegral

/-- The constant `PI` of the source (the 31-digit literal denotes `π`). -/
noncomputable def PI : ℝ := Real.pi

/-- `struct Vec { double x, y, z; }`. -/
@[ext] structure Vec where
  x : ℝ
  y : ℝ
  z : ℝ

/-- `Vec operator+`. -/
instance : Add Vec := ⟨fun a b => ⟨a.x + b.x, a.y + b.y, a.z + b.z⟩⟩

/-- `Vec operator-`. -/
instance : Sub Vec := ⟨fun a b => ⟨a.x - b.x, a.y - b.y, a.z - b.z⟩⟩

/-- `Vec operator* (double b)`: scaling by a scalar. -/
def Vec.smul (a : Vec) (b : ℝ) : Vec := ⟨a.x * b, a.y * b, a.z * b⟩

/-- `Vec::mult`: component-wise product. -/
def Vec.mult (a b : Vec) : Vec := ⟨a.x * b.x, a.y * b.y, a.z * b.z⟩

/-- `Vec::dot`. -/
def Vec.dot (a b : Vec) : ℝ := a.x * b.x + a.y * b.y + a.z * b.z

/-- `Vec::cross`. -/
def Vec.cross (a b : Vec) : Vec :=
  ⟨a.y * b.z - a.z * b.y, a.z * b.x - a.x * b.z, a.x * b.y - a.y * b.x⟩

/-- `Vec::normalize`: `*this * (1.0 / sqrt(x*x + y*y + z*z))`. -/
noncomputable def Vec.normalize (v : Vec) : Vec :=
  v.smul (1 / Real.sqrt (v.x * v.x + v.y * v.y + v.z * v.z))

@[simp] theorem Vec.add_x (a b : Vec) : (a + b).x = a.x + b.x := rfl
@[simp] theorem Vec.add_y (a b : Vec) : (a + b).y = a.y + b.y := rfl
@[simp] theorem Vec.add_z (a b : Vec) : (a + b).z = a.z + b.z := rfl
@[simp] theorem Vec.sub_x (a b : Vec) : (a - b).x = a.x - b.x := rfl
@[simp] theorem Vec.sub_y (a b : Vec) : (a - b).y = a.y - b.y := rfl
@[simp] theorem Vec.sub_z (a b : Vec) : (a - b).z = a.z - b.z := rfl
@[simp] theorem Vec.smul_x (a : Vec) (b : ℝ) : (a.smul b).x = a.x * b := rfl
@[simp] theorem Vec.smul_y (a : Vec) (b : ℝ) : (a.smul b).y = a.y * b := rfl
@[simp] theorem Vec.smul_z (a : Vec) (b : ℝ) : (a.smul b).z = a.z * b := rfl
@[simp] theorem Vec.mult_x (a b : Vec) : (a.mult b).x = a.x * b.x := rfl
@[simp] theorem Vec.mult_y (a b : Vec) : (a.mult b).y = a.y * b.y := rfl
@[simp] theorem Vec.mult_z (a b : Vec) : (a.mult b).z = a.z * b.z := rfl

/-- `struct Ray { Vec o, d; }`. -/
structure Ray where
  o : Vec
  d : Vec

/-- The closed material variant of the program: the class hierarchy of
`BRDF` has exactly the two concrete subclasses `DiffuseBRDF(kd)` and
`SpecularBRDF(ks)`. -/
inductive BRDF where
  | diffuse (kd : Vec)
  | specular (ks : Vec)

/-- `DiffuseBRDF::isSpecular / SpecularBRDF::isSpecular`. -/
def BRDF.isSpecular : BRDF → Bool
  | .diffuse _ => false
  | .specular _ => true

/-- `SpecularBRDF::mirroredDirection`: `i = n * 2.0 * n.dot(o) - o`. -/
noncomputable def mirroredDirection (n o : Vec) : Vec :=
  (n.smul 2).smul (n.dot o) - o

/-- `createLocalCoord` (returns the triple `(u, v, w)`). -/
noncomputable def createLocalCoord (n : Vec) : Vec × Vec × Vec :=
  let w := n
  let u := ((if |w.x| > 0.1 then Vec.mk 0 1 0 else Vec.mk 1 0 0).cross w).normalize
  (u, w.cross u, w)

/-- `uniformRandomPSA`: cosine-weighted hemisphere sampling.  The two
`rng()` draws are passed explicitly (first draw for `z`, second for `phi`).
Returns the pair `(i, pdf)`. -/
noncomputable def uniformRandomPSA (n _o : Vec) (xia xib : ℝ) : Vec × ℝ :=
  let z := Real.sqrt xia
  let r := Real.sqrt (1 - z * z)
  let phi := 2 * PI * xib
  let xx := r * Real.cos phi
  let yy := r * Real.sin phi
  let uvw := createLocalCoord n
  let i := ((uvw.1.smul xx) + (uvw.2.1.smul yy) + (uvw.2.2.smul z)).normalize
  (i, n.dot i / PI)

/-- `DiffuseBRDF::eval / SpecularBRDF::eval`. -/
noncomputable def BRDF.eval : BRDF → Vec → Vec → Vec → Vec
  | .diffuse kd, _n, _o, _i => kd.smul (1 / PI)
  | .specular ks, n, o, i =>
    let mirrored := (mirroredDirection n o).normalize
    let i_n := i.normalize
    if |i_n.x - mirrored.x| ≤ 1e-4 ∧ |i_n.y - mirrored.y| ≤ 1e-4 ∧
        |i_n.z - mirrored.z| ≤ 1e-4 then
      ks.smul (1 / n.dot i)
    else
      Vec.mk 0 0 0

/-- `DiffuseBRDF::sample / SpecularBRDF::sample`; returns `(i, pdf)`.
The diffuse case consumes the two draws, the specular case none. -/
noncomputable def BRDF.sample : BRDF → Vec → Vec → ℝ → ℝ → Vec × ℝ
  | .diffuse _, n, o, xia, xib => uniformRandomPSA n o xia xib
  | .specular _, n, o, _, _ => (mirroredDirection n o, 1.0)

/-- Number of `rng()` draws consumed by `BRDF::sample`: the diffuse sampler
calls `rng()` twice inside `uniformRandomPSA`, the specular one never. -/
def BRDF.sampleDraws : BRDF → ℕ
  | .diffuse _ => 2
  | .specular _ => 0

/-- `struct Sphere`. -/
structure Sphere where
  rad : ℝ
  p : Vec
  e : Vec
  brdf : BRDF

/-- The local `eps = 1e-4` of `Sphere::intersect`. -/
noncomputable def eps : ℝ := 1e-4

/-- `Sphere::intersect`: returns distance, `0` if no hit. -/
noncomputable def Sphere.intersect (s : Sphere) (r : Ray) : ℝ :=
  let op := s.p - r.o
  let b := op.dot r.d
  let det := b * b - op.dot op + s.rad * s.rad
  if det < 0 then 0
  else
    let d := Real.sqrt det
    if b - d > eps then b - d else if b + d > eps then b + d else 0

/-- `const DiffuseBRDF leftWall(Vec(.75, .25, .25))`. -/
def leftWall : BRDF := .diffuse ⟨0.75, 0.25, 0.25⟩

/-- `rightWall(Vec(.25, .25, .75))`. -/
def rightWall : BRDF := .diffuse ⟨0.25, 0.25, 0.75⟩

/-- `otherWall(Vec(.75, .75, .75))`. -/
def otherWall : BRDF := .diffuse ⟨0.75, 0.75, 0.75⟩

/-- `blackSurf(Vec(0.0, 0.0, 0.0))`. -/
def blackSurf : BRDF := .diffuse ⟨0, 0, 0⟩

/-- `brightSurf(Vec(0.9, 0.9, 0.9))`. -/
def brightSurf : BRDF := .diffuse ⟨0.9, 0.9, 0.9⟩

/-- `const SpecularBRDF shinySurf(Vec(0.999, 0.999, 0.999))`. -/
def shinySurf : BRDF := .specular ⟨0.999, 0.999, 0.999⟩

/-- The scene array `spheres[0..7]` (indices beyond 7 are never produced by
`intersect`; they return an inert dummy sphere). -/
noncomputable def sph (i : ℕ) : Sphere :=
  if i = 0 then ⟨1e5, ⟨1e5 + 1, 40.8, 81.6⟩, ⟨0, 0, 0⟩, leftWall⟩
  else if i = 1 then ⟨1e5, ⟨-1e5 + 99, 40.8, 81.6⟩, ⟨0, 0, 0⟩, rightWall⟩
  else if i = 2 then ⟨1e5, ⟨50, 40.8, 1e5⟩, ⟨0, 0, 0⟩, otherWall⟩
  else if i = 3 then ⟨1e5, ⟨50, 1e5, 81.6⟩, ⟨0, 0, 0⟩, otherWall⟩
  else if i = 4 then ⟨1e5, ⟨50, -1e5 + 81.6, 81.6⟩, ⟨0, 0, 0⟩, otherWall⟩
  else if i = 5 then ⟨16.5, ⟨27, 16.5, 47⟩, ⟨0, 0, 0⟩, brightSurf⟩
  else if i = 6 then ⟨16.5, ⟨73, 16.5, 78⟩, ⟨0, 0, 0⟩, shinySurf⟩
  else if i = 7 then ⟨5.0, ⟨50, 70.0, 81.6⟩, ⟨50, 50, 50⟩, blackSurf⟩
  else ⟨1, ⟨0, 0, 0⟩, ⟨0, 0, 0⟩, blackSurf⟩

/-- `const Ray cam(Vec(50, 52, 295.6), Vec(0, -0.042612, -1).normalize())`. -/
noncomputable def cam : Ray := ⟨⟨50, 52, 295.6⟩, (Vec.mk 0 (-0.042612) (-1)).normalize⟩

/-- One iteration of the loop body of the global `intersect`:
`if ((d = spheres[i].intersect(r)) && d < t) { t = d; id = i; }`. -/
noncomputable def intersectStep (r : Ray) (acc : ℝ × ℕ) (is : ℕ × Sphere) : ℝ × ℕ :=
  let d := is.2.intersect r
  if d ≠ 0 ∧ d < acc.1 then (d, is.1) else acc

/-- The global `intersect(r, t, id)`: scans `i = 7` down to `0`, starting
from `t = inf = 1e20`, `id = 0`; returns the final `(t, id)` (the C++
boolean result is `t < 1e20`). -/
noncomputable def intersect (r : Ray) : ℝ × ℕ :=
  ([(7, sph 7), (6, sph 6), (5, sph 5), (4, sph 4), (3, sph 3), (2, sph 2),
    (1, sph 1), (0, sph 0)]).foldl (intersectStep r) (1e20, 0)

/-- `luminaireSample`: uniform point on the sphere surface; the two `rng()`
draws are `e1, e2`.  Returns `(surfacePoint, n, pdf)`. -/
noncomputable def luminaireSample (source : Sphere) (e1 e2 : ℝ) : Vec × Vec × ℝ :=
  let r := source.rad
  let z := 2.0 * e1 - 1.0
  let xx := Real.sqrt (1.0 - z * z) * Real.cos (2.0 * PI * e2)
  let yy := Real.sqrt (1.0 - z * z) * Real.sin (2.0 * PI * e2)
  (source.p + (Vec.mk xx yy z).smul r, Vec.mk xx yy z, 1 / (4.0 * PI * (r * r)))

/-- `isVisibile(x, y)` (sic): casts a ray from `x` toward `y` and returns
`1.0` iff the nearest hit point coincides with `y` within `1e-4` per axis. -/
noncomputable def isVisibile (x y : Vec) : ℝ :=
  let r := Ray.mk x ((y - x).normalize)
  let t := (intersect r).1
  let ip := r.o + r.d.smul t
  if |ip.x - y.x| ≤ 1e-4 ∧ |ip.y - y.y| ≤ 1e-4 ∧ |ip.z - y.z| ≤ 1e-4 then 1.0
  else 0.0

/-- `directRadiance(obj, r, n)`: next-event estimation against the light
`spheres[7]`; the two `rng()` draws of `luminaireSample` are `e1, e2`. -/
noncomputable def directRadiance (obj : Sphere) (r : Ray) (n : Vec) (e1 e2 : ℝ) : Vec :=
  if obj.brdf.isSpecular then Vec.mk 0 0 0
  else
    let ls := luminaireSample (sph 7) e1 e2
    let y1 := ls.1
    let sourceNormal := ls.2.1
    let pdf1 := ls.2.2
    let o1 := (y1 - r.o).normalize
    let r2 := (r.o - y1).dot (r.o - y1)
    (((sph 7).e.mult (obj.brdf.eval n o1 r.d)).smul (isVisibile r.o y1)).smul
      (n.dot o1 * sourceNormal.dot (o1.smul (-1)) / (r2 * pdf1))

/-- The Russian-roulette continuation probability of `receivedRadiance`:
`p = 1.0; if (depth >= 5) p = 0.9`. -/
noncomputable def rrProb (depth : ℕ) : ℝ := if 5 ≤ depth then 0.9 else 1.0

/-- `receivedRadiance(r, depth, flag)` with explicit fuel and random
stream.  `ξ` is the stream of `rng()` results and `k` the index of the next
unconsumed draw; the result carries the updated index.  Fuel `0` returns
black; each successor level runs the C++ body once. -/
noncomputable def receivedRadiance : ℕ → Ray → ℕ → Bool → (ℕ → ℝ) → ℕ → Vec × ℕ
  | 0, _, _, _, _, k => (Vec.mk 0 0 0, k)
  | fuel + 1, r, depth, flag, xi, k =>
    let ti := intersect r
    if ti.1 < 1e20 then
      let obj := sph ti.2
      let x := r.o + r.d.smul ti.1
      let o := (Vec.mk 0 0 0 - r.d).normalize
      let n0 := (x - obj.p).normalize
      let n := if n0.dot o < 0 then n0.smul (-1) else n0
      let dk : Vec × ℕ :=
        if obj.brdf.isSpecular then (Vec.mk 0 0 0, k)
        else (directRadiance obj (Ray.mk x o) n (xi k) (xi (k + 1)), k + 2)
      if xi dk.2 < rrProb depth then
        let ip := obj.brdf.sample n o (xi (dk.2 + 1)) (xi (dk.2 + 2))
        let iN := ip.1.normalize
        let rr := receivedRadiance fuel (Ray.mk x iN) (depth + 1)
          obj.brdf.isSpecular xi (dk.2 + 1 + obj.brdf.sampleDraws)
        let total := dk.1 +
          (rr.1.mult (obj.brdf.eval n o iN)).smul (n.dot iN / (ip.2 * rrProb depth))
        (if flag then obj.e + total else total, rr.2)
      else
        (if flag then obj.e + dk.1 else dk.1, dk.2 + 1)
    else (Vec.mk 0 0 0, k)

/-- The per-sample primary call of the render loop (line 362):
`receivedRadiance(Ray(cam.o, d.normalize()), 1, true)`. -/
noncomputable def primaryEstimate (d : Vec) (xi : ℕ → ℝ) (k fuel : ℕ) : Vec × ℕ :=
  receivedRadiance fuel (Ray.mk cam.o d.normalize) 1 true xi k

/-- `samps` of `main`: `argc == 2 ? atoi(argv[1]) / 4 : 1`, with the parsed
integer of the single optional argument modelled as `Option ℤ` and the
C truncated integer division as `Int.tdiv`. -/
def samps (arg : Option ℤ) : ℤ :=
  match arg with
  | some a => a.tdiv 4
  | none => 1

/-- IEEE-754 model of the one aspect of `double` arithmetic that the real
numbers hide: a quotient `num / den` of finite doubles is a finite number
iff `den ≠ 0`; when `den = 0` it is `±Inf` (for `num ≠ 0`) or `NaN` (for
`num = 0`), never zero. -/
def fpDivNonfinite (den : ℝ) : Prop := den = 0

/-- Component-wise interval integral of a `Vec`-valued function. -/
noncomputable def vecInt (a b : ℝ) (f : ℝ → Vec) : Vec :=
  ⟨∫ t in a..b, (f t).x, ∫ t in a..b, (f t).y, ∫ t in a..b, (f t).z⟩

/-- The expectation semantics of `receivedRadiance`: every `rng()` draw of
the body is integrated over `[0, 1]`, in the order the body consumes them,
and the continuation probability used by the Russian-roulette step (both in
the comparison with the roulette draw and in the `1/(pdf * p)` reweighting)
is abstracted into a schedule `pS : depth → p`.  Instantiating `pS` with
`rrProb` gives the expected value of the program's estimator at the given
fuel; other schedules describe the same estimator with a modified
termination threshold. -/
noncomputable def expectedRadiance (pS : ℕ → ℝ) : ℕ → Ray → ℕ → Bool → Vec
  | 0, _, _, _ => Vec.mk 0 0 0
  | fuel + 1, r, depth, flag =>
    let ti := intersect r
    if ti.1 < 1e20 then
      let obj := sph ti.2
      let x := r.o + r.d.smul ti.1
      let o := (Vec.mk 0 0 0 - r.d).normalize
      let n0 := (x - obj.p).normalize
      let n := if n0.dot o < 0 then n0.smul (-1) else n0
      let direct :=
        if obj.brdf.isSpecular then Vec.mk 0 0 0
        else vecInt 0 1 fun e1 => vecInt 0 1 fun e2 =>
          directRadiance obj (Ray.mk x o) n e1 e2
      let indirect := vecInt 0 1 fun xi3 =>
        if xi3 < pS depth then
          vecInt 0 1 fun xia => vecInt 0 1 fun xib =>
            let ip := obj.brdf.sample n o xia xib
            let iN := ip.1.normalize
            ((expectedRadiance pS fuel (Ray.mk x iN) (depth + 1)
                obj.brdf.isSpecular).mult
              (obj.brdf.eval n o iN)).smul (n.dot iN / (ip.2 * pS depth))
        else Vec.mk 0 0 0
      let total := direct + indirect
      if flag then obj.e + total else total
    else Vec.mk 0 0 0

/-! ### Helper lemmas -/

theorem Vec.normalize_unit (v : Vec) (h : v.x * v.x + v.y * v.y + v.z * v.z = 1) :
    v.normalize = v := by
  ext <;> simp [Vec.normalize, Vec.smul, h]

theorem createLocalCoord_unitZ :
    createLocalCoord ⟨0, 0, 1⟩ = (⟨0, -1, 0⟩, ⟨1, 0, 0⟩, ⟨0, 0, 1⟩) := by
  have habs : ¬ (|(0:ℝ)| > 0.1) := by norm_num
  have hc : (Vec.mk 1 0 0).cross ⟨0, 0, 1⟩ = ⟨0, -1, 0⟩ := by
    ext <;> norm_num [Vec.cross]
  have hn : (Vec.mk 0 (-1) 0).normalize = ⟨0, -1, 0⟩ :=
    Vec.normalize_unit _ (by norm_num)
  simp only [createLocalCoord, habs, if_false, hc, hn, Prod.mk.injEq]
  refine ⟨trivial, ?_, trivial⟩
  ext <;> norm_num [Vec.cross]

theorem createLocalCoord_unitY :
    createLocalCoord ⟨0, 1, 0⟩ = (⟨0, 0, 1⟩, ⟨1, 0, 0⟩, ⟨0, 1, 0⟩) := by
  have habs : ¬ (|(0:ℝ)| > 0.1) := by norm_num
  have hc : (Vec.mk 1 0 0).cross ⟨0, 1, 0⟩ = ⟨0, 0, 1⟩ := by
    ext <;> norm_num [Vec.cross]
  have hn : (Vec.mk 0 0 1).normalize = ⟨0, 0, 1⟩ :=
    Vec.normalize_unit _ (by norm_num)
  simp only [createLocalCoord, habs, if_false, hc, hn, Prod.mk.injEq]
  refine ⟨trivial, ?_, trivial⟩
  ext <;> norm_num [Vec.cross]

/-- Evaluation of the cosine-weighted sampler at the draw pair `(0, 0)`
about the normal `(0,0,1)`: the sampled direction lies in the tangent
plane, so the returned pdf is exactly `0`. -/
theorem uniformRandomPSA_zero_draw (o : Vec) :
    uniformRandomPSA ⟨0, 0, 1⟩ o 0 0 = (⟨0, -1, 0⟩, 0) := by
  simp only [uniformRandomPSA, createLocalCoord_unitZ]
  have h1 : Real.sqrt 0 = 0 := Real.sqrt_zero
  have h2 : Real.sqrt (1 - (0:ℝ) * 0) = 1 := by norm_num [Real.sqrt_one]
  have hi : ((Vec.mk 0 (-1) 0).smul (1 * Real.cos (2 * PI * 0)) +
      (Vec.mk 1 0 0).smul (1 * Real.sin (2 * PI * 0)) +
      (Vec.mk 0 0 1).smul 0) = Vec.mk 0 (-1) 0 := by
    ext <;> norm_num [Vec.smul]
  rw [h1, h2, hi, Vec.normalize_unit _ (by norm_num)]
  norm_num [Vec.dot]

/-! ### C4: command-line sample count -/

/-- C4 (counterexample): with the single argument `2` the program computes
`samps = 2 / 4 = 0`, not the claimed minimum effective value `1`: no
minimum is applied. -/
theorem samps_counterexample : samps (some 2) = 0 ∧ ¬ (1 ≤ samps (some 2)) := by
  constructor <;> decide

/-- C4 (amended): the per-sub-pixel sample count is the optional argument
divided by `4` with C truncated integer division — with no minimum, so `0`
(or a negative count) results from arguments below `4` — and `1` when the
argument is absent. -/
theorem samps_spec :
    (∀ a : ℤ, samps (some a) = a.tdiv 4) ∧ samps none = 1 ∧ samps (some 2) < 1 :=
  ⟨fun _ => rfl, rfl, by decide⟩

/-! ### C6: specular BRDF -/

/-- C6: the specular `eval` is zero unless every component of the
normalized `i` is within `1e-4` of the corresponding component of the
normalized mirror reflection `2(n·o)n − o` of `o` about `n`, in which case
it is the reflectance scaled by `1/(n·i)`; and the specular `sample`
deterministically returns the mirror direction with pdf `1`. -/
theorem specular_brdf_spec (ks n o i : Vec) (xia xib : ℝ) :
    (BRDF.specular ks).eval n o i =
      (if |i.normalize.x - ((n.smul 2).smul (n.dot o) - o).normalize.x| ≤ 1e-4 ∧
          |i.normalize.y - ((n.smul 2).smul (n.dot o) - o).normalize.y| ≤ 1e-4 ∧
          |i.normalize.z - ((n.smul 2).smul (n.dot o) - o).normalize.z| ≤ 1e-4 then
        ks.smul (1 / n.dot i)
      else Vec.mk 0 0 0) ∧
    (BRDF.specular ks).sample n o xia xib = ((n.smul 2).smul (n.dot o) - o, 1.0) :=
  ⟨rfl, rfl⟩

/-! ### C10: diffuse-bounce weight -/

/-- C10: the diffuse sampler reports pdf `(n·i)/π`, and whenever `n·i > 0`
the indirect weight `eval(n,o,i) ⊙ (n·i)/pdf` is exactly the reflectance
`kd`, independent of the sampled direction. -/
theorem diffuse_sample_weight (kd n o : Vec) (xia xib : ℝ)
    (hpos : 0 < n.dot (uniformRandomPSA n o xia xib).1) :
    (uniformRandomPSA n o xia xib).2 = n.dot (uniformRandomPSA n o xia xib).1 / PI ∧
    ((BRDF.diffuse kd).eval n o (uniformRandomPSA n o xia xib).1).smul
      (n.dot (uniformRandomPSA n o xia xib).1 / (uniformRandomPSA n o xia xib).2) = kd := by
  refine ⟨rfl, ?_⟩
  have hPI : PI ≠ 0 := by simpa [PI] using Real.pi_ne_zero
  have hc : n.dot (uniformRandomPSA n o xia xib).1 ≠ 0 := ne_of_gt hpos
  have h2 : (uniformRandomPSA n o xia xib).2 =
      n.dot (uniformRandomPSA n o xia xib).1 / PI := rfl
  rw [h2]
  show (kd.smul (1 / PI)).smul _ = kd
  ext <;> simp only [Vec.smul_x, Vec.smul_y, Vec.smul_z] <;> field_simp

theorem uniformRandomPSA_quarter :
    uniformRandomPSA ⟨0, 0, 1⟩ ⟨0, 0, 1⟩ (1/4) 0 =
      (⟨0, -Real.sqrt (3/4), 1/2⟩, (1/2) / PI) := by
  simp only [uniformRandomPSA, createLocalCoord_unitZ]
  have hz : Real.sqrt (1/4) = 1/2 := by
    rw [show (1/4 : ℝ) = (1/2)^2 by norm_num, Real.sqrt_sq (by norm_num)]
  rw [hz]
  have hr : Real.sqrt (1 - (1/2 : ℝ) * (1/2)) = Real.sqrt (3/4) := by norm_num
  rw [hr]
  have hsq : Real.sqrt (3/4) * Real.sqrt (3/4) = 3/4 := Real.mul_self_sqrt (by norm_num)
  have hi : ((Vec.mk 0 (-1) 0).smul (Real.sqrt (3/4) * Real.cos (2 * PI * 0)) +
      (Vec.mk 1 0 0).smul (Real.sqrt (3/4) * Real.sin (2 * PI * 0)) +
      (Vec.mk 0 0 1).smul (1/2)) = Vec.mk 0 (-Real.sqrt (3/4)) (1/2) := by
    ext <;> norm_num [Vec.smul]
  rw [hi, Vec.normalize_unit _ (by nlinarith [hsq])]
  have : (Vec.mk 0 0 1).dot ⟨0, -Real.sqrt (3/4), 1/2⟩ = 1/2 := by
    norm_num [Vec.dot]
  rw [this]

/-- Witness for C10 at the concrete draw pair `(1/4, 0)` about `n = (0,0,1)`. -/
theorem diffuse_sample_weight_witness :
    ((BRDF.diffuse ⟨1, 1, 1⟩).eval ⟨0, 0, 1⟩ ⟨0, 0, 1⟩
        (uniformRandomPSA ⟨0, 0, 1⟩ ⟨0, 0, 1⟩ (1/4) 0).1).smul
      ((Vec.mk 0 0 1).dot (uniformRandomPSA ⟨0, 0, 1⟩ ⟨0, 0, 1⟩ (1/4) 0).1 /
        (uniformRandomPSA ⟨0, 0, 1⟩ ⟨0, 0, 1⟩ (1/4) 0).2) = ⟨1, 1, 1⟩ := by
  have hpos : 0 < (Vec.mk 0 0 1).dot (uniformRandomPSA ⟨0, 0, 1⟩ ⟨0, 0, 1⟩ (1/4) 0).1 := by
    rw [uniformRandomPSA_quarter]; norm_num [Vec.dot]
  exact (diffuse_sample_weight ⟨1, 1, 1⟩ ⟨0, 0, 1⟩ ⟨0, 0, 1⟩ (1/4) 0 hpos).2

/-! ### C3: pdf = 0 is not special-cased -/

/-- C3: the diffuse sampler can return pdf exactly `0` (draw pair `(0,0)`
puts the sampled direction in the tangent plane), and the estimator's
indirect scale `(n·i) / (pdf · p)` is then an IEEE `0/0 = NaN` — the code
divides unconditionally, with no special case for `pdf = 0`, so the
indirect term is NaN rather than the zero contribution the spec requires. -/
theorem pdf_zero_division_nan :
    (uniformRandomPSA ⟨0, 0, 1⟩ ⟨0, 0, 1⟩ 0 0).2 = 0 ∧
    fpDivNonfinite ((uniformRandomPSA ⟨0, 0, 1⟩ ⟨0, 0, 1⟩ 0 0).2 * rrProb 1) ∧
    (Vec.mk 0 0 1).dot (uniformRandomPSA ⟨0, 0, 1⟩ ⟨0, 0, 1⟩ 0 0).1 = 0 := by
  rw [uniformRandomPSA_zero_draw]
  refine ⟨rfl, ?_, by norm_num [Vec.dot]⟩
  show (0 : ℝ) * rrProb 1 = 0
  ring

/-! ### C7: light sampler -/

/-- C7: for any sphere of positive radius and any first draw in `[0,1]`,
`luminaireSample` returns a point at distance exactly `rad` from the
center, the outward unit normal `(point − center)/rad`, and the area pdf
`1/(4π·rad²)`. -/
theorem luminaireSample_spec (source : Sphere) (e1 e2 : ℝ)
    (h0 : 0 ≤ e1) (h1 : e1 ≤ 1) (hr : 0 < source.rad) :
    Real.sqrt (((luminaireSample source e1 e2).1 - source.p).dot
        ((luminaireSample source e1 e2).1 - source.p)) = source.rad ∧
    (luminaireSample source e1 e2).2.1 =
      ((luminaireSample source e1 e2).1 - source.p).smul (1 / source.rad) ∧
    (luminaireSample source e1 e2).2.2 = 1 / (4.0 * PI * (source.rad * source.rad)) := by
  have hz2 : (2.0 * e1 - 1.0) * (2.0 * e1 - 1.0) ≤ 1 := by nlinarith
  have hs : Real.sqrt (1.0 - (2.0 * e1 - 1.0) * (2.0 * e1 - 1.0)) *
      Real.sqrt (1.0 - (2.0 * e1 - 1.0) * (2.0 * e1 - 1.0)) =
      1.0 - (2.0 * e1 - 1.0) * (2.0 * e1 - 1.0) :=
    Real.mul_self_sqrt (by linarith)
  have hcs : Real.cos (2.0 * PI * e2) ^ 2 + Real.sin (2.0 * PI * e2) ^ 2 = 1 :=
    Real.cos_sq_add_sin_sq _
  have hdiff : (luminaireSample source e1 e2).1 - source.p =
      (Vec.mk (Real.sqrt (1.0 - (2.0 * e1 - 1.0) * (2.0 * e1 - 1.0)) *
          Real.cos (2.0 * PI * e2))
        (Real.sqrt (1.0 - (2.0 * e1 - 1.0) * (2.0 * e1 - 1.0)) *
          Real.sin (2.0 * PI * e2))
        (2.0 * e1 - 1.0)).smul source.rad := by
    ext <;> simp [luminaireSample, Vec.smul]
  have hdot : ((luminaireSample source e1 e2).1 - source.p).dot
      ((luminaireSample source e1 e2).1 - source.p) = source.rad * source.rad := by
    rw [hdiff]
    simp only [Vec.dot, Vec.smul_x, Vec.smul_y, Vec.smul_z]
    linear_combination
      ((Real.cos (2.0 * PI * e2)) ^ 2 + (Real.sin (2.0 * PI * e2)) ^ 2) *
          (source.rad * source.rad) * hs +
        (1.0 - (2.0 * e1 - 1.0) * (2.0 * e1 - 1.0)) * (source.rad * source.rad) * hcs
  refine ⟨?_, ?_, rfl⟩
  · rw [hdot, Real.sqrt_mul_self hr.le]
  · rw [hdiff]
    ext <;> simp [luminaireSample, Vec.smul] <;> field_simp

/-- Witness for C7: the scene light `spheres[7]` with draws `(1/2, 0)`. -/
theorem luminaireSample_witness :
    Real.sqrt (((luminaireSample (sph 7) (1/2) 0).1 - (sph 7).p).dot
        ((luminaireSample (sph 7) (1/2) 0).1 - (sph 7).p)) = (sph 7).rad ∧
    (luminaireSample (sph 7) (1/2) 0).2.1 =
      ((luminaireSample (sph 7) (1/2) 0).1 - (sph 7).p).smul (1 / (sph 7).rad) ∧
    (luminaireSample (sph 7) (1/2) 0).2.2 =
      1 / (4.0 * PI * ((sph 7).rad * (sph 7).rad)) :=
  luminaireSample_spec (sph 7) (1/2) 0 (by norm_num) (by norm_num)
    (by norm_num [sph])

/-! ### C5: analytic sphere intersection -/

/-- C5: with `b = (p − o)·d` and `det = b² − |p − o|² + rad²`, the
intersection routine returns `0` on a negative discriminant (a miss, not an
error), and otherwise the smallest of the two roots `b ± √det` that
strictly exceeds the epsilon `1e-4` — the near root if it qualifies, else
the far root — or `0` when neither qualifies. -/
theorem sphere_intersect_spec (s : Sphere) (r : Ray) :
    let op := s.p - r.o
    let b := op.dot r.d
    let det := b * b - op.dot op + s.rad * s.rad
    eps = 1e-4 ∧
    (det < 0 → s.intersect r = 0) ∧
    (0 ≤ det →
      (eps < s.intersect r ∧
        (s.intersect r = b - Real.sqrt det ∨ s.intersect r = b + Real.sqrt det) ∧
        (∀ t, (t = b - Real.sqrt det ∨ t = b + Real.sqrt det) → eps < t →
          s.intersect r ≤ t)) ∨
      (s.intersect r = 0 ∧ b - Real.sqrt det ≤ eps ∧ b + Real.sqrt det ≤ eps)) := by
  intro op b det
  refine ⟨rfl, fun h => ?_, fun h => ?_⟩
  · simp only [Sphere.intersect]
    rw [if_pos h]
  · have hnl : ¬ (b * b - op.dot op + s.rad * s.rad) < 0 := not_lt.mpr h
    simp only [Sphere.intersect]
    rw [if_neg hnl]
    by_cases h2 : b - Real.sqrt det > eps
    · rw [if_pos h2]
      left
      refine ⟨h2, Or.inl rfl, ?_⟩
      rintro t (rfl | rfl) _
      · exact le_refl _
      · have := Real.sqrt_nonneg det
        linarith
    · rw [if_neg h2]
      by_cases h3 : b + Real.sqrt det > eps
      · rw [if_pos h3]
        left
        refine ⟨h3, Or.inr rfl, ?_⟩
        rintro t (rfl | rfl) hte
        · exact absurd hte h2
        · exact le_refl _
      · rw [if_neg h3]
        right
        exact ⟨rfl, not_lt.mp h2, not_lt.mp h3⟩

/-- Witness for C5: the unit sphere at `(0,0,3)` seen from the origin along
`+z` is entered at distance `2` (the qualifying near root). -/
theorem sphere_intersect_witness :
    Sphere.intersect ⟨1, ⟨0, 0, 3⟩, ⟨0, 0, 0⟩, blackSurf⟩ ⟨⟨0, 0, 0⟩, ⟨0, 0, 1⟩⟩ = 2 := by
  have h := sphere_intersect_spec ⟨1, ⟨0, 0, 3⟩, ⟨0, 0, 0⟩, blackSurf⟩
    ⟨⟨0, 0, 0⟩, ⟨0, 0, 1⟩⟩
  have hdet : ((Vec.mk 0 0 3 - ⟨0, 0, 0⟩).dot ⟨0, 0, 1⟩) *
      ((Vec.mk 0 0 3 - ⟨0, 0, 0⟩).dot ⟨0, 0, 1⟩) -
      (Vec.mk 0 0 3 - ⟨0, 0, 0⟩).dot (Vec.mk 0 0 3 - ⟨0, 0, 0⟩) +
      (1 : ℝ) * 1 = 1 := by
    norm_num [Vec.dot]
  have hb : ((Vec.mk 0 0 3 - ⟨0, 0, 0⟩).dot ⟨0, 0, 1⟩) = 3 := by norm_num [Vec.dot]
  rcases (h.2.2 (by rw [hdet]; norm_num)) with ⟨_, hmem, hmin⟩ | ⟨_, hnear, _⟩
  · rw [hdet, hb, Real.sqrt_one] at hmem hmin
    rcases hmem with he | he
    · rw [he]; norm_num
    · exfalso
      have hle := hmin (3 - 1) (Or.inl rfl) (by rw [h.1]; norm_num)
      rw [he] at hle
      norm_num at hle
  · exfalso
    rw [hdet, hb, Real.sqrt_one, h.1] at hnear
    norm_num at hnear

/-! ### Evaluation lemmas for `Sphere.intersect` and the scene scan -/

theorem Sphere.intersect_miss (s : Sphere) (r : Ray)
    (h : (s.p - r.o).dot r.d * ((s.p - r.o).dot r.d) -
      (s.p - r.o).dot (s.p - r.o) + s.rad * s.rad < 0) :
    s.intersect r = 0 := by
  simp only [Sphere.intersect]
  rw [if_pos h]

theorem Sphere.intersect_near (s : Sphere) (r : Ray) (detv : ℝ)
    (hdet : (s.p - r.o).dot r.d * ((s.p - r.o).dot r.d) -
      (s.p - r.o).dot (s.p - r.o) + s.rad * s.rad = detv)
    (h0 : 0 ≤ detv)
    (hnear : eps < (s.p - r.o).dot r.d - Real.sqrt detv) :
    s.intersect r = (s.p - r.o).dot r.d - Real.sqrt detv := by
  simp only [Sphere.intersect]
  rw [hdet, if_neg (not_lt.mpr h0), if_pos hnear]

theorem Sphere.intersect_far (s : Sphere) (r : Ray) (detv : ℝ)
    (hdet : (s.p - r.o).dot r.d * ((s.p - r.o).dot r.d) -
      (s.p - r.o).dot (s.p - r.o) + s.rad * s.rad = detv)
    (h0 : 0 ≤ detv)
    (hnear : (s.p - r.o).dot r.d - Real.sqrt detv ≤ eps)
    (hfar : eps < (s.p - r.o).dot r.d + Real.sqrt detv) :
    s.intersect r = (s.p - r.o).dot r.d + Real.sqrt detv := by
  simp only [Sphere.intersect]
  rw [hdet, if_neg (not_lt.mpr h0), if_neg (not_lt.mpr hnear), if_pos hfar]

theorem Sphere.intersect_none (s : Sphere) (r : Ray) (detv : ℝ)
    (hdet : (s.p - r.o).dot r.d * ((s.p - r.o).dot r.d) -
      (s.p - r.o).dot (s.p - r.o) + s.rad * s.rad = detv)
    (h0 : 0 ≤ detv)
    (hnear : (s.p - r.o).dot r.d - Real.sqrt detv ≤ eps)
    (hfar : (s.p - r.o).dot r.d + Real.sqrt detv ≤ eps) :
    s.intersect r = 0 := by
  simp only [Sphere.intersect]
  rw [hdet, if_neg (not_lt.mpr h0), if_neg (not_lt.mpr hnear), if_neg (not_lt.mpr hfar)]

theorem sqrt25 : Real.sqrt 25 = 5 := by
  rw [show (25:ℝ) = 5 ^ 2 by norm_num, Real.sqrt_sq (by norm_num : (0:ℝ) ≤ 5)]

theorem sqrt1e10 : Real.sqrt 10000000000 = 100000 := by
  rw [show (10000000000:ℝ) = 100000 ^ 2 by norm_num,
    Real.sqrt_sq (by norm_num : (0:ℝ) ≤ 100000)]

/-- A vertical test ray dropped from `(50, 52, 81.6)` toward the floor. -/
noncomputable def downRay : Ray := ⟨⟨50, 52, 81.6⟩, ⟨0, -1, 0⟩⟩

theorem downRay_s7 : (sph 7).intersect downRay = 0 := by
  apply Sphere.intersect_none _ _ 25
  · norm_num [sph, downRay, Vec.dot]
  · norm_num
  · rw [sqrt25]; norm_num [sph, downRay, Vec.dot, eps]
  · rw [sqrt25]; norm_num [sph, downRay, Vec.dot, eps]

theorem downRay_s6 : (sph 6).intersect downRay = 0 := by
  apply Sphere.intersect_miss
  norm_num [sph, downRay, Vec.dot]

theorem downRay_s5 : (sph 5).intersect downRay = 0 := by
  apply Sphere.intersect_miss
  norm_num [sph, downRay, Vec.dot]

theorem downRay_s4 : (sph 4).intersect downRay = 199970.4 := by
  have h := Sphere.intersect_far (sph 4) downRay 10000000000
    (by norm_num [sph, downRay, Vec.dot]) (by norm_num)
    (by rw [sqrt1e10]; norm_num [sph, downRay, Vec.dot, eps])
    (by rw [sqrt1e10]; norm_num [sph, downRay, Vec.dot, eps])
  rw [h, sqrt1e10]
  norm_num [sph, downRay, Vec.dot]

theorem downRay_s3 : (sph 3).intersect downRay = 52 := by
  have h := Sphere.intersect_far (sph 3) downRay 10000000000
    (by norm_num [sph, downRay, Vec.dot]) (by norm_num)
    (by rw [sqrt1e10]; norm_num [sph, downRay, Vec.dot, eps])
    (by rw [sqrt1e10]; norm_num [sph, downRay, Vec.dot, eps])
  rw [h, sqrt1e10]
  norm_num [sph, downRay, Vec.dot]

theorem downRay_s2 : (sph 2).intersect downRay = 11.2 + Real.sqrt 16313341.44 := by
  have hb : ((sph 2).p - downRay.o).dot downRay.d = 11.2 := by
    norm_num [sph, downRay, Vec.dot]
  have hs : (11.2 : ℝ) ≤ Real.sqrt 16313341.44 := by
    rw [Real.le_sqrt' (by norm_num)]
    norm_num
  have h := Sphere.intersect_far (sph 2) downRay 16313341.44
    (by norm_num [sph, downRay, Vec.dot]) (by norm_num)
    (by rw [hb]; simp only [eps]; linarith)
    (by rw [hb]; simp only [eps]
        linarith [Real.sqrt_nonneg (16313341.44 : ℝ)])
  rw [h, hb]

theorem downRay_s2_ge : (52 : ℝ) ≤ (sph 2).intersect downRay := by
  rw [downRay_s2]
  have : (40.8 : ℝ) ≤ Real.sqrt 16313341.44 := by
    rw [Real.le_sqrt' (by norm_num)]
    norm_num
  linarith

theorem downRay_s1 : (sph 1).intersect downRay = 11.2 + Real.sqrt 9797599 := by
  have hb : ((sph 1).p - downRay.o).dot downRay.d = 11.2 := by
    norm_num [sph, downRay, Vec.dot]
  have hs : (11.2 : ℝ) ≤ Real.sqrt 9797599 := by
    rw [Real.le_sqrt' (by norm_num)]
    norm_num
  have h := Sphere.intersect_far (sph 1) downRay 9797599
    (by norm_num [sph, downRay, Vec.dot]) (by norm_num)
    (by rw [hb]; simp only [eps]; linarith)
    (by rw [hb]; simp only [eps]
        linarith [Real.sqrt_nonneg (9797599 : ℝ)])
  rw [h, hb]

theorem downRay_s1_ge : (52 : ℝ) ≤ (sph 1).intersect downRay := by
  rw [downRay_s1]
  have : (40.8 : ℝ) ≤ Real.sqrt 9797599 := by
    rw [Real.le_sqrt' (by norm_num)]
    norm_num
  linarith

theorem downRay_s0 : (sph 0).intersect downRay = 11.2 + Real.sqrt 9797599 := by
  have hb : ((sph 0).p - downRay.o).dot downRay.d = 11.2 := by
    norm_num [sph, downRay, Vec.dot]
  have hs : (11.2 : ℝ) ≤ Real.sqrt 9797599 := by
    rw [Real.le_sqrt' (by norm_num)]
    norm_num
  have h := Sphere.intersect_far (sph 0) downRay 9797599
    (by norm_num [sph, downRay, Vec.dot]) (by norm_num)
    (by rw [hb]; simp only [eps]; linarith)
    (by rw [hb]; simp only [eps]
        linarith [Real.sqrt_nonneg (9797599 : ℝ)])
  rw [h, hb]

theorem downRay_s0_ge : (52 : ℝ) ≤ (sph 0).intersect downRay := by
  rw [downRay_s0]
  have : (40.8 : ℝ) ≤ Real.sqrt 9797599 := by
    rw [Real.le_sqrt' (by norm_num)]
    norm_num
  linarith

/-- The vertical test ray hits the floor sphere `spheres[3]` at distance 52. -/
theorem intersect_downRay : intersect downRay = (52, 3) := by
  have st7 : intersectStep downRay (1e20, 0) (7, sph 7) = (1e20, 0) := by
    simp only [intersectStep, downRay_s7]
    norm_num
  have st6 : intersectStep downRay (1e20, 0) (6, sph 6) = (1e20, 0) := by
    simp only [intersectStep, downRay_s6]
    norm_num
  have st5 : intersectStep downRay (1e20, 0) (5, sph 5) = (1e20, 0) := by
    simp only [intersectStep, downRay_s5]
    norm_num
  have st4 : intersectStep downRay (1e20, 0) (4, sph 4) = (199970.4, 4) := by
    simp only [intersectStep, downRay_s4]
    norm_num
  have st3 : intersectStep downRay (199970.4, 4) (3, sph 3) = (52, 3) := by
    simp only [intersectStep, downRay_s3]
    norm_num
  have st2 : intersectStep downRay (52, 3) (2, sph 2) = (52, 3) := by
    simp only [intersectStep]
    rw [if_neg]
    intro hc
    exact absurd hc.2 (not_lt.mpr downRay_s2_ge)
  have st1 : intersectStep downRay (52, 3) (1, sph 1) = (52, 3) := by
    simp only [intersectStep]
    rw [if_neg]
    intro hc
    exact absurd hc.2 (not_lt.mpr downRay_s1_ge)
  have st0 : intersectStep downRay (52, 3) (0, sph 0) = (52, 3) := by
    simp only [intersectStep]
    rw [if_neg]
    intro hc
    exact absurd hc.2 (not_lt.mpr downRay_s0_ge)
  simp only [intersect, List.foldl, st7, st6, st5, st4, st3, st2, st1, st0]

/-! ### C1: Russian-roulette schedule and indirect contribution -/

/-- C1: the continuation probability is `1` below depth 5 and `0.9` from
depth 5 on; on a hit the estimator recurses exactly when the drawn sample
is strictly below `p`, and the indirect contribution added on continuation
is the recursive result component-wise multiplied by `eval(n,o,i)` and
scaled by `(n·i) / (pdf · p)`. -/
theorem rr_schedule_spec :
    (∀ depth : ℕ, depth < 5 → rrProb depth = 1) ∧
    (∀ depth : ℕ, 5 ≤ depth → rrProb depth = 0.9) ∧
    (∀ (fuel : ℕ) (r : Ray) (depth : ℕ) (flag : Bool) (xi : ℕ → ℝ) (k : ℕ),
      (intersect r).1 < 1e20 →
      receivedRadiance (fuel + 1) r depth flag xi k =
        (let obj := sph (intersect r).2
         let x := r.o + r.d.smul (intersect r).1
         let o := (Vec.mk 0 0 0 - r.d).normalize
         let n0 := (x - obj.p).normalize
         let n := if n0.dot o < 0 then n0.smul (-1) else n0
         let dk : Vec × ℕ :=
           if obj.brdf.isSpecular then (Vec.mk 0 0 0, k)
           else (directRadiance obj (Ray.mk x o) n (xi k) (xi (k + 1)), k + 2)
         if xi dk.2 < rrProb depth then
           let ip := obj.brdf.sample n o (xi (dk.2 + 1)) (xi (dk.2 + 2))
           let iN := ip.1.normalize
           let rr := receivedRadiance fuel (Ray.mk x iN) (depth + 1)
             obj.brdf.isSpecular xi (dk.2 + 1 + obj.brdf.sampleDraws)
           let total := dk.1 +
             (rr.1.mult (obj.brdf.eval n o iN)).smul (n.dot iN / (ip.2 * rrProb depth))
           (if flag then obj.e + total else total, rr.2)
         else
           (if flag then obj.e + dk.1 else dk.1, dk.2 + 1))) := by
  refine ⟨fun d hd => ?_, fun d hd => ?_, ?_⟩
  · rw [rrProb, if_neg (not_le.mpr hd)]
    norm_num
  · rw [rrProb, if_pos hd]
  · intro fuel r depth flag xi k h
    simp only [receivedRadiance, rrProb]
    rw [if_pos h]

/-- Witness for C1 on the vertical test ray (a hit at depth 1). -/
theorem rr_schedule_witness :
    rrProb 1 = 1 ∧ rrProb 6 = 0.9 ∧
    receivedRadiance 1 downRay 1 true (fun _ => 0) 0 =
      (let obj := sph (intersect downRay).2
       let x := downRay.o + downRay.d.smul (intersect downRay).1
       let o := (Vec.mk 0 0 0 - downRay.d).normalize
       let n0 := (x - obj.p).normalize
       let n := if n0.dot o < 0 then n0.smul (-1) else n0
       let dk : Vec × ℕ :=
         if obj.brdf.isSpecular then (Vec.mk 0 0 0, 0)
         else (directRadiance obj (Ray.mk x o) n ((fun _ => (0:ℝ)) 0)
           ((fun _ => (0:ℝ)) (0 + 1)), 0 + 2)
       if (fun _ => (0:ℝ)) dk.2 < rrProb 1 then
         let ip := obj.brdf.sample n o ((fun _ => (0:ℝ)) (dk.2 + 1))
           ((fun _ => (0:ℝ)) (dk.2 + 2))
         let iN := ip.1.normalize
         let rr := receivedRadiance 0 (Ray.mk x iN) (1 + 1)
           obj.brdf.isSpecular (fun _ => 0) (dk.2 + 1 + obj.brdf.sampleDraws)
         let total := dk.1 +
           (rr.1.mult (obj.brdf.eval n o iN)).smul (n.dot iN / (ip.2 * rrProb 1))
         (if true then obj.e + total else total, rr.2)
       else
         (if true then obj.e + dk.1 else dk.1, dk.2 + 1)) :=
  ⟨rr_schedule_spec.1 1 (by norm_num), rr_schedule_spec.2.1 6 (by norm_num),
    rr_schedule_spec.2.2 0 downRay 1 true (fun _ => 0) 0
      (by rw [intersect_downRay]; show (52:ℝ) < 1e20; norm_num)⟩

/-! ### C2: emission inclusion and the recursion flag -/

theorem Vec.zero_add (v : Vec) : Vec.mk 0 0 0 + v = v := by
  ext <;> simp

theorem Vec.add_zero (v : Vec) : v + Vec.mk 0 0 0 = v := by
  ext <;> simp

/-- C2: on a hit, the value returned with `includeEmission = true` is the
hit sphere's own emission plus the value returned with
`includeEmission = false` under the same draws (the emission is included
iff the flag is set); the returned radiance is the emission term plus the
direct term plus the indirect term, where the recursive bounce is invoked
with `includeEmission = isSpecular` of the material hit by this call; and
the render loop's per-sample primary call passes `depth = 1` and
`includeEmission = true`. -/
theorem emission_flag_spec :
    (∀ (fuel : ℕ) (r : Ray) (depth : ℕ) (xi : ℕ → ℝ) (k : ℕ),
      (intersect r).1 < 1e20 →
      (receivedRadiance (fuel + 1) r depth true xi k).1 =
        (sph (intersect r).2).e + (receivedRadiance (fuel + 1) r depth false xi k).1) ∧
    (∀ (fuel : ℕ) (r : Ray) (depth : ℕ) (flag : Bool) (xi : ℕ → ℝ) (k : ℕ),
      (intersect r).1 < 1e20 →
      (let obj := sph (intersect r).2
       let x := r.o + r.d.smul (intersect r).1
       let o := (Vec.mk 0 0 0 - r.d).normalize
       let n0 := (x - obj.p).normalize
       let n := if n0.dot o < 0 then n0.smul (-1) else n0
       let dk : Vec × ℕ :=
         if obj.brdf.isSpecular then (Vec.mk 0 0 0, k)
         else (directRadiance obj (Ray.mk x o) n (xi k) (xi (k + 1)), k + 2)
       (receivedRadiance (fuel + 1) r depth flag xi k).1 =
         (if flag then obj.e else Vec.mk 0 0 0) +
         (dk.1 +
           (if xi dk.2 < rrProb depth then
             let ip := obj.brdf.sample n o (xi (dk.2 + 1)) (xi (dk.2 + 2))
             let iN := ip.1.normalize
             ((receivedRadiance fuel (Ray.mk x iN) (depth + 1) obj.brdf.isSpecular xi
                 (dk.2 + 1 + obj.brdf.sampleDraws)).1.mult
               (obj.brdf.eval n o iN)).smul (n.dot iN / (ip.2 * rrProb depth))
           else Vec.mk 0 0 0)))) ∧
    (∀ (d : Vec) (xi : ℕ → ℝ) (k fuel : ℕ),
      primaryEstimate d xi k fuel =
        receivedRadiance fuel (Ray.mk cam.o d.normalize) 1 true xi k) := by
  refine ⟨?_, ?_, fun d xi k fuel => rfl⟩
  · intro fuel r depth xi k h
    simp only [receivedRadiance]
    rw [if_pos h, if_pos h]
    by_cases hc : xi ((if (sph (intersect r).2).brdf.isSpecular then (Vec.mk 0 0 0, k)
        else (directRadiance (sph (intersect r).2)
          (Ray.mk (r.o + r.d.smul (intersect r).1)
            ((Vec.mk 0 0 0 - r.d).normalize))
          (if ((r.o + r.d.smul (intersect r).1) -
                (sph (intersect r).2).p).normalize.dot
              ((Vec.mk 0 0 0 - r.d).normalize) < 0 then
            ((r.o + r.d.smul (intersect r).1) -
              (sph (intersect r).2).p).normalize.smul (-1)
          else ((r.o + r.d.smul (intersect r).1) -
            (sph (intersect r).2).p).normalize)
          (xi k) (xi (k + 1)), k + 2)).2) < rrProb depth
    · rw [if_pos hc, if_pos hc]
      simp
    · rw [if_neg hc, if_neg hc]
      simp
  · intro fuel r depth flag xi k h
    intro obj x o n0 n dk
    simp only [receivedRadiance]
    rw [if_pos h]
    show (if xi dk.2 < rrProb depth then _ else _ : Vec × ℕ).1 = _
    by_cases hc : xi dk.2 < rrProb depth
    · rw [if_pos hc, if_pos hc]
      cases flag <;> simp [Vec.zero_add, Vec.add_zero]
    · rw [if_neg hc, if_neg hc]
      cases flag <;> simp [Vec.zero_add, Vec.add_zero]

/-- Witness for C2 on the vertical test ray. -/
theorem emission_flag_witness :
    (receivedRadiance 1 downRay 1 true (fun _ => 0) 0).1 =
      (sph (intersect downRay).2).e +
        (receivedRadiance 1 downRay 1 false (fun _ => 0) 0).1 :=
  emission_flag_spec.1 0 downRay 1 (fun _ => 0) 0
    (by rw [intersect_downRay]; show (52:ℝ) < 1e20; norm_num)

/-! ### C9: Russian-roulette unbiasedness -/

@[simp] theorem vecInt_x (a b : ℝ) (f : ℝ → Vec) :
    (vecInt a b f).x = ∫ t in a..b, (f t).x := rfl
@[simp] theorem vecInt_y (a b : ℝ) (f : ℝ → Vec) :
    (vecInt a b f).y = ∫ t in a..b, (f t).y := rfl
@[simp] theorem vecInt_z (a b : ℝ) (f : ℝ → Vec) :
    (vecInt a b f).z = ∫ t in a..b, (f t).z := rfl

theorem rrProb_pos (depth : ℕ) : 0 < rrProb depth := by
  rw [rrProb]
  split <;> norm_num

theorem rrProb_le_one (depth : ℕ) : rrProb depth ≤ 1 := by
  rw [rrProb]
  split <;> norm_num

theorem integral_ite_lt_const (p c : ℝ) (h0 : 0 ≤ p) (h1 : p ≤ 1) :
    (∫ ξ in (0:ℝ)..1, (if ξ < p then c else 0)) = p * c := by
  have heq : Set.EqOn (fun ξ : ℝ => if ξ < p then c else 0)
      (fun ξ : ℝ => Set.indicator (Set.Iio p) (fun _ => c) ξ) (Set.uIcc 0 1) := by
    intro ξ _
    by_cases h : ξ < p
    · simp only [if_pos h, Set.indicator_of_mem (Set.mem_Iio.mpr h)]
    · simp only [if_neg h,
        Set.indicator_of_not_mem (fun hm => h (Set.mem_Iio.mp hm))]
  rw [intervalIntegral.integral_congr heq,
    intervalIntegral.integral_of_le (by norm_num : (0:ℝ) ≤ 1),
    MeasureTheory.setIntegral_indicator measurableSet_Iio]
  have hset : Set.Ioc (0:ℝ) 1 ∩ Set.Iio p = Set.Ioo 0 p := by
    ext ξ
    constructor
    · rintro ⟨⟨ha, _⟩, hb⟩
      exact ⟨ha, hb⟩
    · rintro ⟨ha, hb⟩
      exact ⟨⟨ha, le_trans (le_of_lt hb) h1⟩, hb⟩
  rw [hset, MeasureTheory.setIntegral_const, Real.volume_Ioo]
  rw [smul_eq_mul, ENNReal.toReal_ofReal (by linarith)]
  ring

theorem roulette_integral_eq (p : ℝ) (hp : 0 < p) (hp1 : p ≤ 1) (F : ℝ → ℝ → ℝ) :
    (∫ t in (0:ℝ)..1, (if t < p then
        ∫ ta in (0:ℝ)..1, (∫ tb in (0:ℝ)..1, F ta tb / p) else 0)) =
      ∫ ta in (0:ℝ)..1, ∫ tb in (0:ℝ)..1, F ta tb := by
  have hin : Set.EqOn (fun ta : ℝ => ∫ tb in (0:ℝ)..1, F ta tb / p)
      (fun ta : ℝ => (∫ tb in (0:ℝ)..1, F ta tb) / p) (Set.uIcc 0 1) :=
    fun ta _ => intervalIntegral.integral_div p (fun tb => F ta tb)
  have h1 : (∫ ta in (0:ℝ)..1, ∫ tb in (0:ℝ)..1, F ta tb / p)
      = (∫ ta in (0:ℝ)..1, ∫ tb in (0:ℝ)..1, F ta tb) / p := by
    rw [intervalIntegral.integral_congr hin, intervalIntegral.integral_div]
  simp only [h1]
  rw [integral_ite_lt_const p _ hp.le hp1]
  field_simp

theorem indirect_integral_invariant (f depth : ℕ) (obj : Sphere) (x o n : Vec)
    (ih : ∀ (r : Ray) (d : ℕ) (fl : Bool),
      expectedRadiance rrProb f r d fl = expectedRadiance (fun _ => 1) f r d fl) :
    (vecInt 0 1 fun xi3 =>
      if xi3 < rrProb depth then
        vecInt 0 1 fun xia => vecInt 0 1 fun xib =>
          ((expectedRadiance rrProb f
              (Ray.mk x (obj.brdf.sample n o xia xib).1.normalize) (depth + 1)
              obj.brdf.isSpecular).mult
            (obj.brdf.eval n o (obj.brdf.sample n o xia xib).1.normalize)).smul
            (n.dot (obj.brdf.sample n o xia xib).1.normalize /
              ((obj.brdf.sample n o xia xib).2 * rrProb depth))
      else Vec.mk 0 0 0) =
    (vecInt 0 1 fun xi3 =>
      if xi3 < 1 then
        vecInt 0 1 fun xia => vecInt 0 1 fun xib =>
          ((expectedRadiance (fun _ => 1) f
              (Ray.mk x (obj.brdf.sample n o xia xib).1.normalize) (depth + 1)
              obj.brdf.isSpecular).mult
            (obj.brdf.eval n o (obj.brdf.sample n o xia xib).1.normalize)).smul
            (n.dot (obj.brdf.sample n o xia xib).1.normalize /
              ((obj.brdf.sample n o xia xib).2 * 1))
      else Vec.mk 0 0 0) := by
  simp only [ih]
  have hsplit : ∀ m c q : ℝ,
      m * (c / (q * rrProb depth)) = m * (c / q) / rrProb depth :=
    fun m c q => by ring
  refine Vec.ext ?_ ?_ ?_
  · simp only [vecInt_x, apply_ite Vec.x, Vec.smul_x, Vec.mult_x, mul_one]
    simp only [hsplit]
    rw [roulette_integral_eq (rrProb depth) (rrProb_pos depth) (rrProb_le_one depth),
      integral_ite_lt_const 1 _ (by norm_num) (le_refl 1), one_mul]
  · simp only [vecInt_y, apply_ite Vec.y, Vec.smul_y, Vec.mult_y, mul_one]
    simp only [hsplit]
    rw [roulette_integral_eq (rrProb depth) (rrProb_pos depth) (rrProb_le_one depth),
      integral_ite_lt_const 1 _ (by norm_num) (le_refl 1), one_mul]
  · simp only [vecInt_z, apply_ite Vec.z, Vec.smul_z, Vec.mult_z, mul_one]
    simp only [hsplit]
    rw [roulette_integral_eq (rrProb depth) (rrProb_pos depth) (rrProb_le_one depth),
      integral_ite_lt_const 1 _ (by norm_num) (le_refl 1), one_mul]

/-- C9: the expected value of the estimator is independent of the
Russian-roulette schedule: with every draw integrated over `[0,1]`, the
estimator run with the program's schedule (`p = 1` below depth 5, `p = 0.9`
from depth 5 on) equals, at every fuel, depth and flag, the estimator that
always continues (`p = 1`): the `1/p` reweighting exactly compensates the
termination probability. -/
theorem rr_expectation_invariant (fuel : ℕ) (r : Ray) (depth : ℕ) (flag : Bool) :
    expectedRadiance rrProb fuel r depth flag =
      expectedRadiance (fun _ => 1) fuel r depth flag := by
  induction fuel generalizing r depth flag with
  | zero => rfl
  | succ f ih =>
    simp only [expectedRadiance]
    by_cases h : (intersect r).1 < 1e20
    · rw [if_pos h, if_pos h,
        indirect_integral_invariant f depth (sph (intersect r).2)
          (r.o + r.d.smul (intersect r).1) ((Vec.mk 0 0 0 - r.d).normalize)
          (if ((r.o + r.d.smul (intersect r).1) -
                (sph (intersect r).2).p).normalize.dot
              ((Vec.mk 0 0 0 - r.d).normalize) < 0 then
            ((r.o + r.d.smul (intersect r).1) -
              (sph (intersect r).2).p).normalize.smul (-1)
          else ((r.o + r.d.smul (intersect r).1) -
            (sph (intersect r).2).p).normalize)
          ih]
    · rw [if_neg h, if_neg h]

/-! ### C8: the estimator can return negative radiance

The configuration: the vertical test ray hits the diffuse floor at
`x8 = (50, 0, 81.6)`.  The light-sampler draws are chosen so that the
sampled point `y8` lies just past the silhouette of the light sphere as
seen from `x8`: the sampled surface normal faces away from `x8` (making
`sourceNormal · (−lightDir)` negative), yet the visibility ray's nearest
hit — the entry point into the light sphere — is still within the `1e-4`
per-axis tolerance of `y8`, so `isVisibile` returns `1` and the direct term
is strictly negative in every component.  The bounce direction is chosen to
hit the light sphere, whose BRDF is `blackSurf` (`kd = 0`), so the entire
indirect contribution vanishes and the estimator returns a negative
vector. -/

/-- Silhouette offset: the light sample sits `delta = 1e-6` past the
silhouette circle (in the `omega_y = 1/14` parametrization). -/
noncomputable def w8 : ℝ := 1/14 - 1e-6

theorem w8_val : w8 = 1/14 - 1e-6 := rfl

theorem w8_pos : 0 < w8 := by norm_num [w8]

/-- `z`-coordinate of the sampled light direction. -/
noncomputable def z8 : ℝ := Real.sqrt (1 - w8 * w8)

theorem z8_sq : z8 * z8 = 1 - w8 * w8 :=
  Real.mul_self_sqrt (by norm_num [w8])

theorem z8_pos : 0 < z8 := Real.sqrt_pos.mpr (by norm_num [w8])

theorem z8_le_one : z8 ≤ 1 := by nlinarith [z8_sq, z8_pos, w8_pos]

/-- Horizontal component of the bounce direction. -/
noncomputable def c8 : ℝ := Real.sqrt 0.001999

theorem c8_sq : c8 * c8 = 0.001999 := Real.mul_self_sqrt (by norm_num)

theorem c8_nonneg : 0 ≤ c8 := Real.sqrt_nonneg _

theorem c8_le : c8 ≤ 0.045 := by nlinarith [c8_sq, c8_nonneg]

/-- The adversarial random stream: draw 0 and 1 drive `luminaireSample`
(to the point `y8` just past the silhouette), draw 2 is the depth-1
roulette draw, draws 3 and 4 drive the diffuse bounce sampler (sending the
bounce into the light sphere); all later draws are `0.95`, so in
particular every roulette draw from depth 5 on stops the C++ recursion. -/
noncomputable def xi8 : ℕ → ℝ := fun k =>
  if k = 0 then (1 + z8)/2 else if k = 1 then 3/4
  else if k = 3 then 0.998001 else if k = 4 then 0 else 0.95

/-- Depth-1 hit point of the vertical test ray (on the floor sphere). -/
noncomputable def x8 : Vec := ⟨50, 0, 81.6⟩

/-- The sampled point on the light sphere, just past its silhouette as
seen from `x8`. -/
noncomputable def y8 : Vec := ⟨50, 70 - 5*w8, 81.6 + 5*z8⟩

/-- The depth-1 bounce ray (aimed at the light sphere). -/
noncomputable def bounceRay : Ray := ⟨x8, ⟨0, 0.999, c8⟩⟩

theorem S8_sq : Real.sqrt 4875.0007 * Real.sqrt 4875.0007 = 4875.0007 :=
  Real.mul_self_sqrt (by norm_num)

theorem S8_lb : (69.8 : ℝ) < Real.sqrt 4875.0007 := by
  rw [Real.lt_sqrt (by norm_num)]
  norm_num

theorem S8_ub : Real.sqrt 4875.0007 < 69.9 := by
  rw [Real.sqrt_lt' (by norm_num)]
  norm_num

theorem S8_pos : (0 : ℝ) < Real.sqrt 4875.0007 := by
  linarith [S8_lb]

theorem yx8_diff : y8 - x8 = Vec.mk 0 (70 - 5*w8) (5*z8) := by
  ext <;> simp [y8, x8]

/-- Squared length of `y8 - x8`. -/
theorem yx8_norm : (y8 - x8).x * (y8 - x8).x + (y8 - x8).y * (y8 - x8).y +
    (y8 - x8).z * (y8 - x8).z = 4875.0007 := by
  rw [yx8_diff]
  show (0:ℝ) * 0 + (70 - 5*w8) * (70 - 5*w8) + 5*z8 * (5*z8) = 4875.0007
  linear_combination 25 * z8_sq - 700 * w8_val

theorem vis_dir : (y8 - x8).normalize =
    (Vec.mk 0 (70 - 5*w8) (5*z8)).smul (1 / Real.sqrt 4875.0007) := by
  rw [Vec.normalize, yx8_norm, yx8_diff]

theorem cos_pi_add_half : Real.cos (Real.pi + Real.pi/2) = 0 := by
  rw [Real.cos_add]
  simp

theorem sin_pi_add_half : Real.sin (Real.pi + Real.pi/2) = -1 := by
  rw [Real.sin_add]
  simp

/-- Evaluation of the light sampler at the adversarial draw pair: it
returns the silhouette-adjacent point `y8`, the outward normal
`(0, -w8, z8)` (which faces away from `x8`), and the area pdf. -/
theorem lum8 : luminaireSample (sph 7) ((1 + z8)/2) (3/4) =
    (y8, ⟨0, -w8, z8⟩, 1 / (4.0 * PI * ((sph 7).rad * (sph 7).rad))) := by
  have hz : (2.0 : ℝ) * ((1 + z8)/2) - 1.0 = z8 := by ring
  have hw : (1.0 : ℝ) - z8 * z8 = w8 * w8 := by linear_combination -z8_sq
  have hsw : Real.sqrt (w8 * w8) = w8 := Real.sqrt_mul_self w8_pos.le
  have hphi : (2.0 : ℝ) * PI * (3/4) = Real.pi + Real.pi/2 := by
    rw [PI]
    ring
  simp only [luminaireSample, hz, hw, hsw, hphi, cos_pi_add_half, sin_pi_add_half,
    Prod.mk.injEq]
  refine ⟨?_, ?_, trivial⟩
  · have h7 : (sph 7).p = Vec.mk 50 70.0 81.6 := by norm_num [sph]
    have h7r : (sph 7).rad = 5.0 := by norm_num [sph]
    rw [h7, h7r]
    ext <;> simp [y8, Vec.smul] <;> ring
  · ext <;> simp

theorem eps_pos : 0 < eps := by norm_num [eps]

theorem intersect_miss_of_bsq (s : Sphere) (r : Ray) (bound : ℝ)
    (hb : ((s.p - r.o).dot r.d) * ((s.p - r.o).dot r.d) ≤ bound)
    (hlt : bound - (s.p - r.o).dot (s.p - r.o) + s.rad * s.rad < 0) :
    s.intersect r = 0 := by
  apply Sphere.intersect_miss
  nlinarith [hb, hlt]

theorem near_le_eps_of_sq (b d : ℝ) (h : b * b ≤ d) : b - Real.sqrt d ≤ eps := by
  have h0 : (0:ℝ) ≤ d := le_trans (mul_self_nonneg b) h
  have hle : b ≤ Real.sqrt d := by
    rcases le_or_lt b 0 with hb | hb
    · linarith [Real.sqrt_nonneg d]
    · rw [Real.le_sqrt hb.le h0]
      nlinarith
  linarith [eps_pos]

theorem le_add_sqrt (b d m : ℝ) (h0 : 0 ≤ d) (h : (m - b) * (m - b) ≤ d) :
    m ≤ b + Real.sqrt d := by
  rcases le_or_lt m b with hmb | hmb
  · linarith [Real.sqrt_nonneg d]
  · have hx : (0:ℝ) ≤ m - b := by linarith
    have : m - b ≤ Real.sqrt d := by
      rw [Real.le_sqrt hx h0]
      nlinarith
    linarith

/-- If the near root misses the epsilon test and the far root is at least
`m > eps`, the intersection distance is at least `m`. -/
theorem intersect_ge (s : Sphere) (r : Ray) (detv m : ℝ)
    (hdet : (s.p - r.o).dot r.d * ((s.p - r.o).dot r.d) -
      (s.p - r.o).dot (s.p - r.o) + s.rad * s.rad = detv)
    (h0 : 0 ≤ detv)
    (hnear : (s.p - r.o).dot r.d - Real.sqrt detv ≤ eps)
    (hm : m ≤ (s.p - r.o).dot r.d + Real.sqrt detv)
    (hme : eps < m) :
    m ≤ s.intersect r := by
  rw [Sphere.intersect_far s r detv hdet h0 hnear (lt_of_lt_of_le hme hm)]
  exact hm

/-- The visibility ray cast by `isVisibile(x8, y8)`. -/
noncomputable def vRay8 : Ray := ⟨x8, (y8 - x8).normalize⟩

theorem vRay8_d : vRay8.d =
    (Vec.mk 0 (70 - 5*w8) (5*z8)).smul (1/Real.sqrt 4875.0007) := vis_dir

theorem vis_dot (v : Vec) : v.dot vRay8.d =
    (v.y * (70 - 5*w8) + v.z * (5*z8)) * (1/Real.sqrt 4875.0007) := by
  rw [vRay8_d]
  simp [Vec.dot, Vec.smul]
  ring

theorem u8_sq : (1/Real.sqrt 4875.0007) * (1/Real.sqrt 4875.0007) * 4875.0007 = 1 := by
  rw [div_mul_div_comm, one_mul, S8_sq]
  norm_num

theorem u8_pos : (0:ℝ) < 1/Real.sqrt 4875.0007 := by positivity

theorem u8_lb : (1:ℝ)/69.9 < 1/Real.sqrt 4875.0007 :=
  one_div_lt_one_div_of_lt S8_pos S8_ub

theorem u8_ub : (1:ℝ)/Real.sqrt 4875.0007 < 1/69.8 :=
  one_div_lt_one_div_of_lt (by norm_num) S8_lb

theorem A8_lb : (69.64:ℝ) ≤ 70 - 5*w8 := by norm_num [w8]

theorem A8_ub : (70:ℝ) - 5*w8 ≤ 69.65 := by norm_num [w8]

theorem Au8_le_one : (70 - 5*w8) * (1/Real.sqrt 4875.0007) ≤ 1 := by
  rw [mul_one_div, div_le_one S8_pos]
  linarith [S8_lb, A8_ub]

theorem Au8_nonneg : 0 ≤ (70 - 5*w8) * (1/Real.sqrt 4875.0007) := by
  have := u8_pos
  nlinarith [A8_lb]

theorem Au8_lb : (0.99:ℝ) ≤ (70 - 5*w8) * (1/Real.sqrt 4875.0007) := by
  have h1 : (1:ℝ)/69.9 < 1/Real.sqrt 4875.0007 := u8_lb
  nlinarith [A8_lb, u8_pos]

theorem zu8_nonneg : 0 ≤ z8 * (1/Real.sqrt 4875.0007) := by
  have := u8_pos
  nlinarith [z8_pos]

theorem zu8_ub : z8 * (1/Real.sqrt 4875.0007) ≤ 1/69.8 := by
  nlinarith [z8_le_one, z8_pos, u8_ub, u8_pos]

theorem vis_s7 : (sph 7).intersect vRay8 = 4875 * (1/Real.sqrt 4875.0007) := by
  have hv : (sph 7).p - vRay8.o = Vec.mk 0 70 0 := by
    ext <;> norm_num [sph, vRay8, x8]
  have hb : ((sph 7).p - vRay8.o).dot vRay8.d =
      (70 * (70 - 5*w8)) * (1/Real.sqrt 4875.0007) := by
    rw [hv, vis_dot]
    ring
  have hop : ((sph 7).p - vRay8.o).dot ((sph 7).p - vRay8.o) = 4900 := by
    rw [hv]
    norm_num [Vec.dot]
  have hrad : (sph 7).rad = 5.0 := by norm_num [sph]
  have key : (4900:ℝ) * ((70 - 5*w8) * (70 - 5*w8)) - 0.00035 * 0.00035 =
      4875 * 4875.0007 := by norm_num [w8]
  have hdet : ((sph 7).p - vRay8.o).dot vRay8.d * (((sph 7).p - vRay8.o).dot vRay8.d) -
      ((sph 7).p - vRay8.o).dot ((sph 7).p - vRay8.o) + (sph 7).rad * (sph 7).rad =
      (0.00035 * (1/Real.sqrt 4875.0007)) * (0.00035 * (1/Real.sqrt 4875.0007)) := by
    rw [hb, hop, hrad]
    linear_combination ((1/Real.sqrt 4875.0007) * (1/Real.sqrt 4875.0007)) * key +
      4875 * u8_sq
  have hs : Real.sqrt ((0.00035 * (1/Real.sqrt 4875.0007)) *
      (0.00035 * (1/Real.sqrt 4875.0007))) = 0.00035 * (1/Real.sqrt 4875.0007) :=
    Real.sqrt_mul_self (by positivity)
  have h70 : (70:ℝ)*(70 - 5*w8) - 0.00035 = 4875 := by norm_num [w8]
  have heq : (70 * (70 - 5*w8)) * (1/Real.sqrt 4875.0007) -
      0.00035 * (1/Real.sqrt 4875.0007) = 4875 * (1/Real.sqrt 4875.0007) := by
    linear_combination (1/Real.sqrt 4875.0007) * h70
  have hnear : eps < ((sph 7).p - vRay8.o).dot vRay8.d -
      Real.sqrt ((0.00035 * (1/Real.sqrt 4875.0007)) *
        (0.00035 * (1/Real.sqrt 4875.0007))) := by
    rw [hb, hs, heq]
    simp only [eps]
    have := u8_lb
    linarith
  have h := Sphere.intersect_near (sph 7) vRay8 _ hdet (by positivity) hnear
  rw [h, hb, hs, heq]

theorem vis_s6 : (sph 6).intersect vRay8 = 0 := by
  have hv : (sph 6).p - vRay8.o = Vec.mk 23 16.5 (-3.6) := by
    ext <;> norm_num [sph, vRay8, x8]
  have hb : ((sph 6).p - vRay8.o).dot vRay8.d =
      (16.5 * (70 - 5*w8)) * (1/Real.sqrt 4875.0007) -
        18 * (z8 * (1/Real.sqrt 4875.0007)) := by
    rw [hv, vis_dot]
    ring
  apply intersect_miss_of_bsq _ _ 280
  · rw [hb]
    have h1 := Au8_le_one
    have h2 := Au8_nonneg
    have h3 := zu8_nonneg
    have h4 := zu8_ub
    nlinarith [A8_lb, A8_ub, u8_pos, u8_ub, u8_lb]
  · rw [hv]
    norm_num [Vec.dot, sph]

theorem vis_s5 : (sph 5).intersect vRay8 = 0 := by
  have hv : (sph 5).p - vRay8.o = Vec.mk (-23) 16.5 (-34.6) := by
    ext <;> norm_num [sph, vRay8, x8]
  have hb : ((sph 5).p - vRay8.o).dot vRay8.d =
      (16.5 * (70 - 5*w8)) * (1/Real.sqrt 4875.0007) -
        173 * (z8 * (1/Real.sqrt 4875.0007)) := by
    rw [hv, vis_dot]
    ring
  apply intersect_miss_of_bsq _ _ 280
  · rw [hb]
    have h1 := Au8_le_one
    have h2 := Au8_nonneg
    have h3 := zu8_nonneg
    have h4 := zu8_ub
    nlinarith [A8_lb, A8_ub, u8_pos, u8_ub, u8_lb]
  · rw [hv]
    norm_num [Vec.dot, sph]

theorem vis_s4 : (69.85:ℝ) ≤ (sph 4).intersect vRay8 := by
  have hv : (sph 4).p - vRay8.o = Vec.mk 0 (-99918.4) 0 := by
    ext <;> norm_num [sph, vRay8, x8]
  have hb : ((sph 4).p - vRay8.o).dot vRay8.d =
      -(99918.4 * ((70 - 5*w8) * (1/Real.sqrt 4875.0007))) := by
    rw [hv, vis_dot]
    ring
  have hop : ((sph 4).p - vRay8.o).dot ((sph 4).p - vRay8.o) = 9983686658.56 := by
    rw [hv]
    norm_num [Vec.dot]
  have hrad : (sph 4).rad = 1e5 := by norm_num [sph]
  have hdet : ((sph 4).p - vRay8.o).dot vRay8.d * (((sph 4).p - vRay8.o).dot vRay8.d) -
      ((sph 4).p - vRay8.o).dot ((sph 4).p - vRay8.o) + (sph 4).rad * (sph 4).rad =
      ((sph 4).p - vRay8.o).dot vRay8.d * (((sph 4).p - vRay8.o).dot vRay8.d) +
        16313341.44 := by
    rw [hop, hrad]
    linarith
  apply intersect_ge _ _ _ 69.85 hdet
  · nlinarith [mul_self_nonneg (((sph 4).p - vRay8.o).dot vRay8.d)]
  · apply near_le_eps_of_sq
    nlinarith
  · apply le_add_sqrt _ _ _
      (by nlinarith [mul_self_nonneg (((sph 4).p - vRay8.o).dot vRay8.d)])
    rw [hb]
    have h1 := Au8_le_one
    have h2 := Au8_nonneg
    nlinarith
  · simp only [eps]
    norm_num

theorem vis_s3 : (69.85:ℝ) ≤ (sph 3).intersect vRay8 := by
  have hv : (sph 3).p - vRay8.o = Vec.mk 0 1e5 0 := by
    ext <;> norm_num [sph, vRay8, x8]
  have hb : ((sph 3).p - vRay8.o).dot vRay8.d =
      1e5 * ((70 - 5*w8) * (1/Real.sqrt 4875.0007)) := by
    rw [hv, vis_dot]
    ring
  have hop : ((sph 3).p - vRay8.o).dot ((sph 3).p - vRay8.o) = 1e10 := by
    rw [hv]
    norm_num [Vec.dot]
  have hrad : (sph 3).rad = 1e5 := by norm_num [sph]
  have hdet : ((sph 3).p - vRay8.o).dot vRay8.d * (((sph 3).p - vRay8.o).dot vRay8.d) -
      ((sph 3).p - vRay8.o).dot ((sph 3).p - vRay8.o) + (sph 3).rad * (sph 3).rad =
      ((sph 3).p - vRay8.o).dot vRay8.d * (((sph 3).p - vRay8.o).dot vRay8.d) := by
    rw [hop, hrad]
    norm_num
  apply intersect_ge _ _ _ 69.85 hdet
  · exact mul_self_nonneg _
  · apply near_le_eps_of_sq
    exact le_refl _
  · apply le_add_sqrt _ _ _ (mul_self_nonneg _)
    rw [hb]
    have h1 := Au8_lb
    nlinarith
  · simp only [eps]
    norm_num

theorem vis_s2 : (69.85:ℝ) ≤ (sph 2).intersect vRay8 := by
  have hv : (sph 2).p - vRay8.o = Vec.mk 0 40.8 99918.4 := by
    ext <;> norm_num [sph, vRay8, x8]
  have hb : ((sph 2).p - vRay8.o).dot vRay8.d =
      40.8 * ((70 - 5*w8) * (1/Real.sqrt 4875.0007)) +
        499592 * (z8 * (1/Real.sqrt 4875.0007)) := by
    rw [hv, vis_dot]
    ring
  have hop : ((sph 2).p - vRay8.o).dot ((sph 2).p - vRay8.o) = 9983688323.20 := by
    rw [hv]
    norm_num [Vec.dot]
  have hrad : (sph 2).rad = 1e5 := by norm_num [sph]
  have hdet : ((sph 2).p - vRay8.o).dot vRay8.d * (((sph 2).p - vRay8.o).dot vRay8.d) -
      ((sph 2).p - vRay8.o).dot ((sph 2).p - vRay8.o) + (sph 2).rad * (sph 2).rad =
      ((sph 2).p - vRay8.o).dot vRay8.d * (((sph 2).p - vRay8.o).dot vRay8.d) +
        16311676.8 := by
    rw [hop, hrad]
    linarith
  have hbn : 0 ≤ ((sph 2).p - vRay8.o).dot vRay8.d := by
    rw [hb]
    have h2 := Au8_nonneg
    have h3 := zu8_nonneg
    nlinarith
  apply intersect_ge _ _ _ 69.85 hdet
  · nlinarith [mul_self_nonneg (((sph 2).p - vRay8.o).dot vRay8.d)]
  · apply near_le_eps_of_sq
    nlinarith
  · apply le_add_sqrt _ _ _
      (by nlinarith [mul_self_nonneg (((sph 2).p - vRay8.o).dot vRay8.d)])
    nlinarith [mul_self_nonneg (69.85 - ((sph 2).p - vRay8.o).dot vRay8.d),
      mul_self_nonneg (((sph 2).p - vRay8.o).dot vRay8.d)]
  · simp only [eps]
    norm_num

theorem vis_s1 : (69.85:ℝ) ≤ (sph 1).intersect vRay8 := by
  have hv : (sph 1).p - vRay8.o = Vec.mk (-99951) 40.8 0 := by
    ext <;> norm_num [sph, vRay8, x8]
  have hb : ((sph 1).p - vRay8.o).dot vRay8.d =
      40.8 * ((70 - 5*w8) * (1/Real.sqrt 4875.0007)) := by
    rw [hv, vis_dot]
    ring
  have hop : ((sph 1).p - vRay8.o).dot ((sph 1).p - vRay8.o) = 9990204065.64 := by
    rw [hv]
    norm_num [Vec.dot]
  have hrad : (sph 1).rad = 1e5 := by norm_num [sph]
  have hdet : ((sph 1).p - vRay8.o).dot vRay8.d * (((sph 1).p - vRay8.o).dot vRay8.d) -
      ((sph 1).p - vRay8.o).dot ((sph 1).p - vRay8.o) + (sph 1).rad * (sph 1).rad =
      ((sph 1).p - vRay8.o).dot vRay8.d * (((sph 1).p - vRay8.o).dot vRay8.d) +
        9795934.36 := by
    rw [hop, hrad]
    linarith
  have hbn : 0 ≤ ((sph 1).p - vRay8.o).dot vRay8.d := by
    rw [hb]
    have h2 := Au8_nonneg
    nlinarith
  apply intersect_ge _ _ _ 69.85 hdet
  · nlinarith [mul_self_nonneg (((sph 1).p - vRay8.o).dot vRay8.d)]
  · apply near_le_eps_of_sq
    nlinarith
  · apply le_add_sqrt _ _ _
      (by nlinarith [mul_self_nonneg (((sph 1).p - vRay8.o).dot vRay8.d)])
    nlinarith [mul_self_nonneg (69.85 - ((sph 1).p - vRay8.o).dot vRay8.d),
      mul_self_nonneg (((sph 1).p - vRay8.o).dot vRay8.d)]
  · simp only [eps]
    norm_num

theorem vis_s0 : (69.85:ℝ) ≤ (sph 0).intersect vRay8 := by
  have hv : (sph 0).p - vRay8.o = Vec.mk 99951 40.8 0 := by
    ext <;> norm_num [sph, vRay8, x8]
  have hb : ((sph 0).p - vRay8.o).dot vRay8.d =
      40.8 * ((70 - 5*w8) * (1/Real.sqrt 4875.0007)) := by
    rw [hv, vis_dot]
    ring
  have hop : ((sph 0).p - vRay8.o).dot ((sph 0).p - vRay8.o) = 9990204065.64 := by
    rw [hv]
    norm_num [Vec.dot]
  have hrad : (sph 0).rad = 1e5 := by norm_num [sph]
  have hdet : ((sph 0).p - vRay8.o).dot vRay8.d * (((sph 0).p - vRay8.o).dot vRay8.d) -
      ((sph 0).p - vRay8.o).dot ((sph 0).p - vRay8.o) + (sph 0).rad * (sph 0).rad =
      ((sph 0).p - vRay8.o).dot vRay8.d * (((sph 0).p - vRay8.o).dot vRay8.d) +
        9795934.36 := by
    rw [hop, hrad]
    linarith
  have hbn : 0 ≤ ((sph 0).p - vRay8.o).dot vRay8.d := by
    rw [hb]
    have h2 := Au8_nonneg
    nlinarith
  apply intersect_ge _ _ _ 69.85 hdet
  · nlinarith [mul_self_nonneg (((sph 0).p - vRay8.o).dot vRay8.d)]
  · apply near_le_eps_of_sq
    nlinarith
  · apply le_add_sqrt _ _ _
      (by nlinarith [mul_self_nonneg (((sph 0).p - vRay8.o).dot vRay8.d)])
    nlinarith [mul_self_nonneg (69.85 - ((sph 0).p - vRay8.o).dot vRay8.d),
      mul_self_nonneg (((sph 0).p - vRay8.o).dot vRay8.d)]
  · simp only [eps]
    norm_num

theorem tv8_pos : (0:ℝ) < 4875 * (1/Real.sqrt 4875.0007) := by positivity

theorem tv8_ub : 4875 * (1/Real.sqrt 4875.0007) ≤ 69.85 := by
  nlinarith [u8_ub, u8_pos]

/-- The visibility scan from `x8` toward `y8`: the nearest hit is the entry
point into the light sphere. -/
theorem intersect_vRay8 : intersect vRay8 = (4875 * (1/Real.sqrt 4875.0007), 7) := by
  have st7 : intersectStep vRay8 (1e20, 0) (7, sph 7) =
      (4875 * (1/Real.sqrt 4875.0007), 7) := by
    simp only [intersectStep, vis_s7]
    rw [if_pos]
    exact ⟨ne_of_gt tv8_pos, by nlinarith [tv8_ub]⟩
  have skip : ∀ i : ℕ, (69.85:ℝ) ≤ (sph i).intersect vRay8 →
      intersectStep vRay8 (4875 * (1/Real.sqrt 4875.0007), 7) (i, sph i) =
        (4875 * (1/Real.sqrt 4875.0007), 7) := by
    intro i hge
    simp only [intersectStep]
    rw [if_neg]
    intro hc
    have := hc.2
    have h2 := tv8_ub
    simp only at this
    linarith
  have stmiss : ∀ i : ℕ, (sph i).intersect vRay8 = 0 →
      intersectStep vRay8 (4875 * (1/Real.sqrt 4875.0007), 7) (i, sph i) =
        (4875 * (1/Real.sqrt 4875.0007), 7) := by
    intro i h0
    simp only [intersectStep, h0]
    rw [if_neg]
    intro hc
    exact hc.1 rfl
  simp only [intersect, List.foldl, st7, stmiss 6 vis_s6, stmiss 5 vis_s5,
    skip 4 vis_s4, skip 3 vis_s3, skip 2 vis_s2, skip 1 vis_s1, skip 0 vis_s0]

/-- The sloppy visibility test accepts the back-facing sample point `y8`:
the entry point of the ray into the light sphere is within `1e-4` per axis
of `y8`. -/
theorem vis8_one : isVisibile x8 y8 = 1.0 := by
  have hfold : vRay8 = Ray.mk x8 ((y8 - x8).normalize) := rfl
  simp only [isVisibile, ← hfold, intersect_vRay8]
  rw [if_pos]
  have husq : (1/Real.sqrt 4875.0007) * (1/Real.sqrt 4875.0007) ≤
      (1/69.8) * (1/69.8) := by
    nlinarith [u8_ub, u8_pos]
  have hu := u8_sq
  refine ⟨?_, ?_, ?_⟩
  · show |(vRay8.o + vRay8.d.smul (4875 * (1/Real.sqrt 4875.0007))).x - y8.x| ≤ 1e-4
    rw [vRay8_d]
    simp only [Vec.add_x, Vec.smul_x, vRay8, x8, y8]
    norm_num
  · show |(vRay8.o + vRay8.d.smul (4875 * (1/Real.sqrt 4875.0007))).y - y8.y| ≤ 1e-4
    rw [vRay8_d]
    simp only [Vec.add_y, Vec.smul_y, vRay8, x8, y8]
    rw [abs_le]
    constructor
    · nlinarith [A8_lb, A8_ub, u8_pos, husq, u8_ub]
    · nlinarith [A8_lb, A8_ub, u8_pos, husq, u8_ub]
  · show |(vRay8.o + vRay8.d.smul (4875 * (1/Real.sqrt 4875.0007))).z - y8.z| ≤ 1e-4
    rw [vRay8_d]
    simp only [Vec.add_z, Vec.smul_z, vRay8, x8, y8]
    rw [abs_le]
    constructor
    · nlinarith [z8_pos, z8_le_one, u8_pos, husq, u8_ub]
    · nlinarith [z8_pos, z8_le_one, u8_pos, husq, u8_ub]

theorem hr2_8 : (x8 - y8).dot (x8 - y8) = 4875.0007 := by
  have h : x8 - y8 = Vec.mk 0 (-(70 - 5*w8)) (-(5*z8)) := by
    ext <;> simp [x8, y8]
  rw [h]
  show (0:ℝ) * 0 + -(70 - 5*w8) * -(70 - 5*w8) + -(5*z8) * -(5*z8) = 4875.0007
  linear_combination 25 * z8_sq - 700 * w8_val

theorem n8_dot : (Vec.mk 0 1 0).dot
    ((Vec.mk 0 (70 - 5*w8) (5*z8)).smul (1/Real.sqrt 4875.0007)) =
    (70 - 5*w8) * (1/Real.sqrt 4875.0007) := by
  simp [Vec.dot, Vec.smul]

theorem sn8_dot : (Vec.mk 0 (-w8) z8).dot
    (((Vec.mk 0 (70 - 5*w8) (5*z8)).smul (1/Real.sqrt 4875.0007)).smul (-1)) =
    -0.00007 * (1/Real.sqrt 4875.0007) := by
  simp only [Vec.dot, Vec.smul_x, Vec.smul_y, Vec.smul_z]
  show (0:ℝ) * (0 * (1/Real.sqrt 4875.0007) * (-1)) +
      -w8 * ((70 - 5*w8) * (1/Real.sqrt 4875.0007) * (-1)) +
      z8 * (5*z8 * (1/Real.sqrt 4875.0007) * (-1)) =
      -0.00007 * (1/Real.sqrt 4875.0007)
  linear_combination (-5*(1/Real.sqrt 4875.0007)) * z8_sq +
    (70*(1/Real.sqrt 4875.0007)) * w8_val

theorem PI_pos : 0 < PI := by
  rw [PI]
  exact Real.pi_pos

theorem direct8_eq : directRadiance (sph 3) (Ray.mk x8 ⟨0, 1, 0⟩) ⟨0, 1, 0⟩
    ((1 + z8)/2) (3/4) =
    (((sph 7).e.mult ((Vec.mk 0.75 0.75 0.75).smul (1/PI))).smul 1.0).smul
      ((70 - 5*w8) * (1/Real.sqrt 4875.0007) *
        (-0.00007 * (1/Real.sqrt 4875.0007)) /
        (4875.0007 * (1/(4.0 * PI * ((sph 7).rad * (sph 7).rad))))) := by
  have hbrdf : (sph 3).brdf = BRDF.diffuse ⟨0.75, 0.75, 0.75⟩ := by
    norm_num [sph, otherWall]
  simp only [directRadiance, hbrdf, BRDF.isSpecular, Bool.false_eq_true, if_false,
    lum8, BRDF.eval, vis_dir, vis8_one, hr2_8, n8_dot, sn8_dot]

theorem scal8_neg : (70 - 5*w8) * (1/Real.sqrt 4875.0007) *
    (-0.00007 * (1/Real.sqrt 4875.0007)) /
    (4875.0007 * (1/(4.0 * PI * ((sph 7).rad * (sph 7).rad)))) < 0 := by
  have hrad : (sph 7).rad = 5.0 := by norm_num [sph]
  apply div_neg_of_neg_of_pos
  · apply mul_neg_of_pos_of_neg
    · nlinarith [A8_lb, u8_pos]
    · nlinarith [u8_pos]
  · rw [hrad]
    have h1 : (0:ℝ) < 4.0 * PI * (5.0 * 5.0) := by nlinarith [PI_pos]
    positivity

theorem direct8_neg :
    (directRadiance (sph 3) (Ray.mk x8 ⟨0, 1, 0⟩) ⟨0, 1, 0⟩ ((1 + z8)/2) (3/4)).x < 0 ∧
    (directRadiance (sph 3) (Ray.mk x8 ⟨0, 1, 0⟩) ⟨0, 1, 0⟩ ((1 + z8)/2) (3/4)).y < 0 ∧
    (directRadiance (sph 3) (Ray.mk x8 ⟨0, 1, 0⟩) ⟨0, 1, 0⟩ ((1 + z8)/2) (3/4)).z < 0 := by
  rw [direct8_eq]
  have he : (sph 7).e = Vec.mk 50 50 50 := by norm_num [sph]
  rw [he]
  have hs := scal8_neg
  have hPI := PI_pos
  have hcoef : (0:ℝ) < 50 * (0.75 * (1/PI)) * 1.0 := by positivity
  refine ⟨?_, ?_, ?_⟩ <;>
  · simp only [Vec.smul_x, Vec.smul_y, Vec.smul_z, Vec.mult_x, Vec.mult_y, Vec.mult_z]
    nlinarith [hs, hcoef]

theorem uPSA8 : uniformRandomPSA ⟨0, 1, 0⟩ ⟨0, 1, 0⟩ 0.998001 0 =
    (⟨0, 0.999, c8⟩, 0.999 / PI) := by
  simp only [uniformRandomPSA, createLocalCoord_unitY]
  have hz : Real.sqrt 0.998001 = 0.999 := by
    rw [show (0.998001:ℝ) = 0.999^2 by norm_num, Real.sqrt_sq (by norm_num)]
  rw [hz]
  have hr : Real.sqrt (1 - (0.999:ℝ) * 0.999) = c8 := by norm_num [c8]
  rw [hr]
  have hi : ((Vec.mk 0 0 1).smul (c8 * Real.cos (2 * PI * 0)) +
      (Vec.mk 1 0 0).smul (c8 * Real.sin (2 * PI * 0)) +
      (Vec.mk 0 1 0).smul 0.999) = Vec.mk 0 0.999 c8 := by
    ext <;> norm_num [Vec.smul]
  rw [hi, Vec.normalize_unit _ (by nlinarith [c8_sq])]
  have hd : (Vec.mk 0 1 0).dot ⟨0, 0.999, c8⟩ = 0.999 := by
    norm_num [Vec.dot]
  rw [hd]

theorem bounce_unit : (Vec.mk 0 0.999 c8).normalize = Vec.mk 0 0.999 c8 :=
  Vec.normalize_unit _ (by nlinarith [c8_sq])

theorem bounce_dot (v : Vec) : v.dot bounceRay.d = v.y * 0.999 + v.z * c8 := by
  simp [bounceRay, Vec.dot]

theorem sqrtdet7_ub : Real.sqrt 15.2049 < 3.91 := by
  rw [Real.sqrt_lt' (by norm_num)]
  norm_num

theorem sqrtdet7_lb : (3.83:ℝ) < Real.sqrt 15.2049 := by
  rw [Real.lt_sqrt (by norm_num)]
  norm_num

theorem bounce_s7 : (sph 7).intersect bounceRay = 69.93 - Real.sqrt 15.2049 := by
  have hv : (sph 7).p - bounceRay.o = Vec.mk 0 70 0 := by
    ext <;> norm_num [sph, bounceRay, x8]
  have hb : ((sph 7).p - bounceRay.o).dot bounceRay.d = 69.93 := by
    rw [hv, bounce_dot]
    norm_num
  have hop : ((sph 7).p - bounceRay.o).dot ((sph 7).p - bounceRay.o) = 4900 := by
    rw [hv]
    norm_num [Vec.dot]
  have hrad : (sph 7).rad = 5.0 := by norm_num [sph]
  have hdet : ((sph 7).p - bounceRay.o).dot bounceRay.d *
      (((sph 7).p - bounceRay.o).dot bounceRay.d) -
      ((sph 7).p - bounceRay.o).dot ((sph 7).p - bounceRay.o) +
      (sph 7).rad * (sph 7).rad = 15.2049 := by
    rw [hb, hop, hrad]
    norm_num
  have hnear : eps < ((sph 7).p - bounceRay.o).dot bounceRay.d -
      Real.sqrt 15.2049 := by
    rw [hb]
    simp only [eps]
    linarith [sqrtdet7_ub]
  rw [Sphere.intersect_near (sph 7) bounceRay 15.2049 hdet (by norm_num) hnear, hb]

theorem bounce_s6 : (sph 6).intersect bounceRay = 0 := by
  have hv : (sph 6).p - bounceRay.o = Vec.mk 23 16.5 (-3.6) := by
    ext <;> norm_num [sph, bounceRay, x8]
  apply intersect_miss_of_bsq _ _ 272
  · rw [hv, bounce_dot]
    nlinarith [c8_nonneg, c8_le]
  · rw [hv]
    norm_num [Vec.dot, sph]

theorem bounce_s5 : (sph 5).intersect bounceRay = 0 := by
  have hv : (sph 5).p - bounceRay.o = Vec.mk (-23) 16.5 (-34.6) := by
    ext <;> norm_num [sph, bounceRay, x8]
  apply intersect_miss_of_bsq _ _ 272
  · rw [hv, bounce_dot]
    nlinarith [c8_nonneg, c8_le]
  · rw [hv]
    norm_num [Vec.dot, sph]

theorem bounce_s4 : (66.1:ℝ) ≤ (sph 4).intersect bounceRay := by
  have hv : (sph 4).p - bounceRay.o = Vec.mk 0 (-99918.4) 0 := by
    ext <;> norm_num [sph, bounceRay, x8]
  have hb : ((sph 4).p - bounceRay.o).dot bounceRay.d = -99818.4816 := by
    rw [hv, bounce_dot]
    norm_num
  have hop : ((sph 4).p - bounceRay.o).dot ((sph 4).p - bounceRay.o) =
      9983686658.56 := by
    rw [hv]
    norm_num [Vec.dot]
  have hrad : (sph 4).rad = 1e5 := by norm_num [sph]
  have hdet : ((sph 4).p - bounceRay.o).dot bounceRay.d *
      (((sph 4).p - bounceRay.o).dot bounceRay.d) -
      ((sph 4).p - bounceRay.o).dot ((sph 4).p - bounceRay.o) +
      (sph 4).rad * (sph 4).rad =
      (-99818.4816:ℝ) * (-99818.4816) + 16313341.44 := by
    rw [hb, hop, hrad]
    norm_num
  apply intersect_ge _ _ _ 66.1 hdet
  · nlinarith
  · apply near_le_eps_of_sq
    rw [hb]
    nlinarith
  · rw [hb]
    apply le_add_sqrt _ _ _ (by nlinarith)
    norm_num
  · simp only [eps]
    norm_num

theorem bounce_s3 : (66.1:ℝ) ≤ (sph 3).intersect bounceRay := by
  have hv : (sph 3).p - bounceRay.o = Vec.mk 0 1e5 0 := by
    ext <;> norm_num [sph, bounceRay, x8]
  have hb : ((sph 3).p - bounceRay.o).dot bounceRay.d = 99900 := by
    rw [hv, bounce_dot]
    norm_num
  have hop : ((sph 3).p - bounceRay.o).dot ((sph 3).p - bounceRay.o) = 1e10 := by
    rw [hv]
    norm_num [Vec.dot]
  have hrad : (sph 3).rad = 1e5 := by norm_num [sph]
  have hdet : ((sph 3).p - bounceRay.o).dot bounceRay.d *
      (((sph 3).p - bounceRay.o).dot bounceRay.d) -
      ((sph 3).p - bounceRay.o).dot ((sph 3).p - bounceRay.o) +
      (sph 3).rad * (sph 3).rad = (99900:ℝ) * 99900 := by
    rw [hb, hop, hrad]
    norm_num
  apply intersect_ge _ _ _ 66.1 hdet
  · nlinarith
  · apply near_le_eps_of_sq
    rw [hb]
  · rw [hb]
    apply le_add_sqrt _ _ _ (by nlinarith)
    norm_num
  · simp only [eps]
    norm_num

theorem bounce_s2 : (66.1:ℝ) ≤ (sph 2).intersect bounceRay := by
  have hv : (sph 2).p - bounceRay.o = Vec.mk 0 40.8 99918.4 := by
    ext <;> norm_num [sph, bounceRay, x8]
  have hb : ((sph 2).p - bounceRay.o).dot bounceRay.d = 40.7592 + 99918.4 * c8 := by
    rw [hv, bounce_dot]
    norm_num
  have hop : ((sph 2).p - bounceRay.o).dot ((sph 2).p - bounceRay.o) =
      9983688323.20 := by
    rw [hv]
    norm_num [Vec.dot]
  have hrad : (sph 2).rad = 1e5 := by norm_num [sph]
  have hdet : ((sph 2).p - bounceRay.o).dot bounceRay.d *
      (((sph 2).p - bounceRay.o).dot bounceRay.d) -
      ((sph 2).p - bounceRay.o).dot ((sph 2).p - bounceRay.o) +
      (sph 2).rad * (sph 2).rad =
      (40.7592 + 99918.4 * c8) * (40.7592 + 99918.4 * c8) + 16311676.8 := by
    rw [hb, hop, hrad]
    linarith
  have hbn : (0:ℝ) ≤ 40.7592 + 99918.4 * c8 := by nlinarith [c8_nonneg]
  apply intersect_ge _ _ _ 66.1 hdet
  · nlinarith [mul_self_nonneg (40.7592 + 99918.4 * c8)]
  · apply near_le_eps_of_sq
    rw [hb]
    nlinarith [mul_self_nonneg (40.7592 + 99918.4 * c8)]
  · rw [hb]
    apply le_add_sqrt _ _ _
      (by nlinarith [mul_self_nonneg (40.7592 + 99918.4 * c8)])
    nlinarith [hbn, mul_self_nonneg (66.1 - (40.7592 + 99918.4 * c8))]
  · simp only [eps]
    norm_num

theorem bounce_s1 : (66.1:ℝ) ≤ (sph 1).intersect bounceRay := by
  have hv : (sph 1).p - bounceRay.o = Vec.mk (-99951) 40.8 0 := by
    ext <;> norm_num [sph, bounceRay, x8]
  have hb : ((sph 1).p - bounceRay.o).dot bounceRay.d = 40.7592 := by
    rw [hv, bounce_dot]
    norm_num
  have hop : ((sph 1).p - bounceRay.o).dot ((sph 1).p - bounceRay.o) =
      9990204065.64 := by
    rw [hv]
    norm_num [Vec.dot]
  have hrad : (sph 1).rad = 1e5 := by norm_num [sph]
  have hdet : ((sph 1).p - bounceRay.o).dot bounceRay.d *
      (((sph 1).p - bounceRay.o).dot bounceRay.d) -
      ((sph 1).p - bounceRay.o).dot ((sph 1).p - bounceRay.o) +
      (sph 1).rad * (sph 1).rad = (40.7592:ℝ) * 40.7592 + 9795934.36 := by
    rw [hb, hop, hrad]
    norm_num
  apply intersect_ge _ _ _ 66.1 hdet
  · nlinarith
  · apply near_le_eps_of_sq
    rw [hb]
    nlinarith
  · rw [hb]
    apply le_add_sqrt _ _ _ (by nlinarith)
    norm_num
  · simp only [eps]
    norm_num

theorem bounce_s0 : (66.1:ℝ) ≤ (sph 0).intersect bounceRay := by
  have hv : (sph 0).p - bounceRay.o = Vec.mk 99951 40.8 0 := by
    ext <;> norm_num [sph, bounceRay, x8]
  have hb : ((sph 0).p - bounceRay.o).dot bounceRay.d = 40.7592 := by
    rw [hv, bounce_dot]
    norm_num
  have hop : ((sph 0).p - bounceRay.o).dot ((sph 0).p - bounceRay.o) =
      9990204065.64 := by
    rw [hv]
    norm_num [Vec.dot]
  have hrad : (sph 0).rad = 1e5 := by norm_num [sph]
  have hdet : ((sph 0).p - bounceRay.o).dot bounceRay.d *
      (((sph 0).p - bounceRay.o).dot bounceRay.d) -
      ((sph 0).p - bounceRay.o).dot ((sph 0).p - bounceRay.o) +
      (sph 0).rad * (sph 0).rad = (40.7592:ℝ) * 40.7592 + 9795934.36 := by
    rw [hb, hop, hrad]
    norm_num
  apply intersect_ge _ _ _ 66.1 hdet
  · nlinarith
  · apply near_le_eps_of_sq
    rw [hb]
    nlinarith
  · rw [hb]
    apply le_add_sqrt _ _ _ (by nlinarith)
    norm_num
  · simp only [eps]
    norm_num

theorem tb8_bounds : (66.02:ℝ) < 69.93 - Real.sqrt 15.2049 ∧
    (69.93:ℝ) - Real.sqrt 15.2049 ≤ 66.1 := by
  constructor
  · linarith [sqrtdet7_ub]
  · linarith [sqrtdet7_lb]

/-- The bounce ray's nearest hit is the light sphere. -/
theorem intersect_bounce : intersect bounceRay = (69.93 - Real.sqrt 15.2049, 7) := by
  have htb := tb8_bounds
  have st7 : intersectStep bounceRay (1e20, 0) (7, sph 7) =
      (69.93 - Real.sqrt 15.2049, 7) := by
    simp only [intersectStep, bounce_s7]
    rw [if_pos]
    refine ⟨by linarith [htb.1], by linarith [htb.2]⟩
  have skip : ∀ i : ℕ, (66.1:ℝ) ≤ (sph i).intersect bounceRay →
      intersectStep bounceRay (69.93 - Real.sqrt 15.2049, 7) (i, sph i) =
        (69.93 - Real.sqrt 15.2049, 7) := by
    intro i hge
    simp only [intersectStep]
    rw [if_neg]
    intro hc
    have := hc.2
    simp only at this
    linarith [htb.2]
  have stmiss : ∀ i : ℕ, (sph i).intersect bounceRay = 0 →
      intersectStep bounceRay (69.93 - Real.sqrt 15.2049, 7) (i, sph i) =
        (69.93 - Real.sqrt 15.2049, 7) := by
    intro i h0
    simp only [intersectStep, h0]
    rw [if_neg]
    intro hc
    exact hc.1 rfl
  simp only [intersect, List.foldl, st7, stmiss 6 bounce_s6, stmiss 5 bounce_s5,
    skip 4 bounce_s4, skip 3 bounce_s3, skip 2 bounce_s2, skip 1 bounce_s1,
    skip 0 bounce_s0]

/-- One-step unfolding of `receivedRadiance` at successor fuel. -/
theorem receivedRadiance_succ (fuel : ℕ) (r : Ray) (depth : ℕ) (flag : Bool)
    (xi : ℕ → ℝ) (k : ℕ) :
    receivedRadiance (fuel + 1) r depth flag xi k =
      (if (intersect r).1 < 1e20 then
        (let obj := sph (intersect r).2
         let x := r.o + r.d.smul (intersect r).1
         let o := (Vec.mk 0 0 0 - r.d).normalize
         let n0 := (x - obj.p).normalize
         let n := if n0.dot o < 0 then n0.smul (-1) else n0
         let dk : Vec × ℕ :=
           if obj.brdf.isSpecular then (Vec.mk 0 0 0, k)
           else (directRadiance obj (Ray.mk x o) n (xi k) (xi (k + 1)), k + 2)
         if xi dk.2 < rrProb depth then
           let ip := obj.brdf.sample n o (xi (dk.2 + 1)) (xi (dk.2 + 2))
           let iN := ip.1.normalize
           let rr := receivedRadiance fuel (Ray.mk x iN) (depth + 1)
             obj.brdf.isSpecular xi (dk.2 + 1 + obj.brdf.sampleDraws)
           let total := dk.1 +
             (rr.1.mult (obj.brdf.eval n o iN)).smul (n.dot iN / (ip.2 * rrProb depth))
           (if flag then obj.e + total else total, rr.2)
         else
           (if flag then obj.e + dk.1 else dk.1, dk.2 + 1))
      else (Vec.mk 0 0 0, k)) := by
  simp only [receivedRadiance]

theorem zero_smul_vec (t : ℝ) : (Vec.mk 0 0 0).smul t = Vec.mk 0 0 0 := by
  ext <;> simp

theorem mult_zero_vec (v : Vec) : v.mult (Vec.mk 0 0 0) = Vec.mk 0 0 0 := by
  ext <;> simp

/-- NEE against the light is identically zero when the shaded object is the
light sphere itself: its BRDF is `blackSurf` with `kd = 0`. -/
theorem direct_black (rr : Ray) (n : Vec) (e1 e2 : ℝ) :
    directRadiance (sph 7) rr n e1 e2 = Vec.mk 0 0 0 := by
  have hb7 : (sph 7).brdf = BRDF.diffuse ⟨0, 0, 0⟩ := by
    norm_num [sph, blackSurf]
  simp only [directRadiance, hb7, BRDF.isSpecular, Bool.false_eq_true, if_false,
    BRDF.eval, zero_smul_vec, mult_zero_vec]

/-- Any estimator call whose ray is the bounce ray returns black: the hit
object is the light sphere, whose `kd = 0` BRDF kills the direct term and
(multiplicatively) the entire indirect term, and the call's flag is false,
so its emission is not added either.  This holds for every fuel and any
random stream. -/
theorem bounce_zero (M d : ℕ) (xi : ℕ → ℝ) (k : ℕ) :
    (receivedRadiance M bounceRay d false xi k).1 = Vec.mk 0 0 0 := by
  cases M with
  | zero => rfl
  | succ m =>
    have hb7 : (sph 7).brdf = BRDF.diffuse ⟨0, 0, 0⟩ := by
      norm_num [sph, blackSurf]
    have hlt : (69.93 - Real.sqrt 15.2049 : ℝ) < 1e20 := by
      linarith [tb8_bounds.2]
    simp only [receivedRadiance, intersect_bounce]
    rw [if_pos hlt]
    simp only [hb7, BRDF.isSpecular, Bool.false_eq_true, if_false, direct_black,
      BRDF.eval, zero_smul_vec, mult_zero_vec]
    by_cases hc : xi (k + 2) < rrProb d
    · rw [if_pos hc]
      simp [Vec.zero_add, Vec.add_zero, zero_smul_vec]
    · rw [if_neg hc]

theorem zero_mult_vec (v : Vec) : (Vec.mk 0 0 0).mult v = Vec.mk 0 0 0 := by
  ext <;> simp

/-- C8 (refutation): with the adversarial stream `xi8`, the estimator's
value at the vertical test ray — for every fuel at least 2, hence for the
actual (terminating) run of the program — is negative in every component:
the tolerance-based visibility test accepts a back-facing light sample, the
unclamped geometric term makes the direct contribution negative, and the
bounce hits the zero-reflectance light sphere so nothing compensates. -/
theorem radiance_negative (N : ℕ) :
    (receivedRadiance (N + 2) downRay 1 true xi8 0).1.x < 0 ∧
    (receivedRadiance (N + 2) downRay 1 true xi8 0).1.y < 0 ∧
    (receivedRadiance (N + 2) downRay 1 true xi8 0).1.z < 0 := by
  have hbrdf3 : (sph 3).brdf = BRDF.diffuse ⟨0.75, 0.75, 0.75⟩ := by
    norm_num [sph, otherWall]
  have he3 : (sph 3).e = Vec.mk 0 0 0 := by norm_num [sph]
  have hx : downRay.o + downRay.d.smul 52 = x8 := by
    ext <;> norm_num [downRay, x8]
  have ho : (Vec.mk 0 0 0 - downRay.d).normalize = Vec.mk 0 1 0 := by
    have h1 : Vec.mk 0 0 0 - downRay.d = Vec.mk 0 1 0 := by
      ext <;> norm_num [downRay]
    rw [h1]
    exact Vec.normalize_unit _ (by norm_num)
  have hp3 : (sph 3).p = Vec.mk 50 1e5 81.6 := by norm_num [sph]
  have hn0 : (x8 - (sph 3).p).normalize = Vec.mk 0 (-1) 0 := by
    rw [hp3]
    have h1 : x8 - Vec.mk 50 1e5 81.6 = Vec.mk 0 (-100000) 0 := by
      ext <;> norm_num [x8]
    rw [h1, Vec.normalize]
    have harg : (Vec.mk (0:ℝ) (-100000) 0).x * (Vec.mk (0:ℝ) (-100000) 0).x +
        (Vec.mk (0:ℝ) (-100000) 0).y * (Vec.mk (0:ℝ) (-100000) 0).y +
        (Vec.mk (0:ℝ) (-100000) 0).z * (Vec.mk (0:ℝ) (-100000) 0).z =
        10000000000 := by
      norm_num
    rw [harg, sqrt1e10]
    ext <;> norm_num [Vec.smul]
  have hdotno : (Vec.mk (0:ℝ) (-1) 0).dot ⟨0, 1, 0⟩ = -1 := by norm_num [Vec.dot]
  have hflip : (Vec.mk (0:ℝ) (-1) 0).smul (-1) = Vec.mk 0 1 0 := by
    ext <;> norm_num [Vec.smul]
  have hxi0 : xi8 0 = (1 + z8)/2 := by norm_num [xi8]
  have hxi1 : xi8 1 = 3/4 := by norm_num [xi8]
  have hxi2 : xi8 2 = 0.95 := by norm_num [xi8]
  have hxi3 : xi8 3 = 0.998001 := by norm_num [xi8]
  have hxi4 : xi8 4 = 0 := by norm_num [xi8]
  have hrr1 : rrProb 1 = 1.0 := by norm_num [rrProb]
  have hval : (receivedRadiance (N + 2) downRay 1 true xi8 0).1 =
      directRadiance (sph 3) (Ray.mk x8 ⟨0, 1, 0⟩) ⟨0, 1, 0⟩ ((1 + z8)/2) (3/4) := by
    show (receivedRadiance ((N + 1) + 1) downRay 1 true xi8 0).1 = _
    rw [receivedRadiance_succ]
    simp only [intersect_downRay]
    rw [if_pos (show ((52:ℝ), (3:ℕ)).1 < 1e20 by norm_num)]
    simp only [hx, ho, hn0, hdotno]
    rw [if_pos (show (-1:ℝ) < 0 by norm_num)]
    simp only [hflip, hbrdf3, BRDF.isSpecular, Bool.false_eq_true, if_false,
      hxi0, hxi1, hxi2, hxi3, hxi4, hrr1]
    rw [if_pos (show (0.95:ℝ) < 1.0 by norm_num)]
    simp only [BRDF.sample, BRDF.sampleDraws, uPSA8, bounce_unit]
    rw [show Ray.mk x8 (Vec.mk 0 0.999 c8) = bounceRay from rfl]
    simp only [bounce_zero, zero_mult_vec, zero_smul_vec, he3, Vec.add_zero,
      Vec.zero_add, if_true]
  rw [hval]
  exact direct8_neg
